import Mathlib

/-!
# kube-arangodb: server group specs and the storage rotation plan builder

A shallow embedding of

* `pkg/apis/deployment/v1alpha/server_group_spec.go`
  (`ServerGroupSpec` with `Validate`, `SetDefaults`, `SetDefaultsFrom`,
  `ResetImmutableFields`),
* `pkg/deployment/reconcile/plan_builder_storage.go`
  (`createRotateServerStoragePlan`),
* `pkg/apis/deployment/v1alpha/bootstrap.go`
  (`BootstrapSpec` with `Validate` and `SetDefaults`), and
* `AuthenticationSpec.ResetImmutableFields`, whose body is outside the embedded
  files and which is modelled from the spec and checked against the table of
  `authentication_spec_test.go`.

Go pointers (`*int`, `*string`) and nil-able slices and maps are `Option`s, Go
`int` is `Int` (only compared, never computed with), a Go map is an
association list read by its first matching key, and the callbacks of the plan
builder (`getPVC`, `createEvent`, the logger) are a pure lookup function and
output lists carried in the builder's state.

Modelling assumptions of the plan builder:

* `getPVC` answers the same claim name the same way throughout one call, and
  returns either an error or a claim (never a nil claim without an error);
* `createRotateMemberPlan`, `ForeachServerGroup`, the role labels and the
  constructors of actions and events are declared outside the embedded files;
  the planner is a parameter, the others are modelled as documented at their
  definitions;
* what `createRotateMemberPlan` itself writes to the logger is not recorded.
-/

namespace KubeArangoDB

/-! ## Enumerations of the API package -/

/-- Modelled from the spec: the `ServerGroup` enumeration (its declaration is
outside the embedded files); the spec lists the six roles in this order. -/
inductive ServerGroup where
  | Single
  | Agents
  | DBServers
  | Coordinators
  | SyncMasters
  | SyncWorkers
  deriving DecidableEq, Repr

/-- Modelled from the spec: the `DeploymentMode` enumeration
(Single | ResilientSingle | Cluster). -/
inductive DeploymentMode where
  | Single
  | ResilientSingle
  | Cluster
  deriving DecidableEq, Repr

/-- Modelled from the spec: the `Environment` enumeration
(Development | Production). -/
inductive Environment where
  | Development
  | Production
  deriving DecidableEq, Repr

/-- Modelled from the spec: `ServerGroup.AsRole`, the role label of a group
(its table is outside the embedded files; only the fact that the label is a
function of the group is used). -/
def ServerGroup.AsRole : ServerGroup → String
  | .Single => "single"
  | .Agents => "agent"
  | .DBServers => "dbserver"
  | .Coordinators => "coordinator"
  | .SyncMasters => "syncmaster"
  | .SyncWorkers => "syncworker"

/-! ## Resource requirements (`k8s.io/api/core/v1`) -/

/-- A `resource.Quantity`, kept as the text it was parsed from. -/
structure Quantity where
  text : String
  deriving DecidableEq, Repr

/-- The function `resource.MustParse`. -/
def Quantity.MustParse (s : String) : Quantity := ⟨s⟩

/-- A `v1.ResourceName`. -/
abbrev ResourceName := String

/-- The constant `v1.ResourceStorage`. -/
def ResourceStorage : ResourceName := "storage"

/-- A `v1.ResourceList`, a Go map from resource name to quantity: an
association list read by its first matching key. -/
abbrev ResourceList := List (ResourceName × Quantity)

/-- Go map read `m[k]` on a possibly nil map: the value and the `found` flag
together (`none` is "not found"; reading a nil map finds nothing). -/
def ResourceList.get (m : Option ResourceList) (k : ResourceName) : Option Quantity :=
  match m with
  | none => none
  | some kvs => kvs.lookup k

/-- Go map write `m[k] = v` on a non-nil map: replaces the value of an existing
key in place, or adds the key. -/
def ResourceList.set : ResourceList → ResourceName → Quantity → ResourceList
  | [], k, v => [(k, v)]
  | (k', v') :: rest, k, v =>
    if k' = k then (k', v) :: rest else (k', v') :: ResourceList.set rest k v

/-- A `v1.ResourceRequirements`. -/
structure ResourceRequirements where
  Limits : Option ResourceList
  Requests : Option ResourceList
  deriving DecidableEq, Repr

/-! ## `ServerGroupSpec` (server_group_spec.go) -/

/-- The struct `ServerGroupSpec`. -/
structure ServerGroupSpec where
  /-- Count holds the requested number of servers (`*int`). -/
  Count : Option Int
  /-- Args holds additional commandline arguments (a nil-able slice). -/
  Args : Option (List String)
  /-- StorageClassName specifies the classname for storage (`*string`). -/
  StorageClassName : Option String
  /-- Resources holds resource requests and limits. -/
  Resources : ResourceRequirements
  deriving DecidableEq, Repr

/-- Modelled from the spec: `util.Int`, a pointer to a fresh copy of the value. -/
def util.Int (v : ℤ) : Option ℤ := some v

/-- Modelled from the spec: `util.IntOrNil`, nil for nil and otherwise a pointer
to a copy of the pointed-to value ("overwritten with the original's value"). -/
def util.IntOrNil : Option ℤ → Option ℤ
  | none => none
  | some v => some v

/-- Modelled from the spec: `util.StringOrNil`, nil for nil and otherwise a
pointer to a copy of the pointed-to value. -/
def util.StringOrNil : Option String → Option String
  | none => none
  | some v => some v

/-- Modelled from the spec: `util.StringOrDefault` called without a default:
the pointed-to string, a nil pointer read as the empty string. -/
def util.StringOrDefault : Option String → String
  | none => ""
  | some v => v

/-- `ServerGroupSpec.GetCount` -/
def ServerGroupSpec.GetCount (s : ServerGroupSpec) : Int :=
  match s.Count with
  | none => 0
  | some c => c

/-- `ServerGroupSpec.GetStorageClassName` -/
def ServerGroupSpec.GetStorageClassName (s : ServerGroupSpec) : String :=
  match s.StorageClassName with
  | none => ""
  | some c => c

/-- The errors `Validate` can return; each wraps `ValidationError`. The
variants are the three `return maskAny(errors.Wrapf(ValidationError, ...))`
sites in source order. -/
inductive ValidationError where
  | countBelowMin (minCount : Int)
  | countAboveOne
  | unusedCountNonZero
  deriving DecidableEq, Repr

/-- `ServerGroupSpec.Validate`; `Except.ok ()` is Go's `nil`. -/
def ServerGroupSpec.Validate (s : ServerGroupSpec) (group : ServerGroup) (used : Bool)
    (mode : DeploymentMode) (env : Environment) : Except ValidationError Unit :=
  if used then
    let minCount : Int :=
      if env = Environment.Production then
        match group with
        | .Single => if mode = DeploymentMode.ResilientSingle then 2 else 1
        | .Agents => 3
        | .DBServers | .Coordinators | .SyncMasters | .SyncWorkers => 2
      else 1
    if s.GetCount < minCount then
      .error (.countBelowMin minCount)
    else if s.GetCount > 1 ∧ group = ServerGroup.Single ∧ mode = DeploymentMode.Single then
      .error .countAboveOne
    else
      .ok ()
  else if s.GetCount ≠ 0 then
    .error .unusedCountNonZero
  else
    .ok ()

/-- The first statement of `ServerGroupSpec.SetDefaults`: the default count. -/
def ServerGroupSpec.setDefaultCount (s : ServerGroupSpec) (group : ServerGroup) (used : Bool)
    (mode : DeploymentMode) : ServerGroupSpec :=
  if s.GetCount = 0 ∧ used = true then
    match group with
    | .Single =>
      if mode = DeploymentMode.Single then
        { s with Count := util.Int 1 } -- Single server
      else
        { s with Count := util.Int 2 } -- Resilient single
    | _ => { s with Count := util.Int 3 }
  else s

/-- The second statement of `ServerGroupSpec.SetDefaults`: the default storage
request. -/
def ServerGroupSpec.setDefaultStorageRequest (s : ServerGroupSpec) (group : ServerGroup) :
    ServerGroupSpec :=
  match ResourceList.get s.Resources.Requests ResourceStorage with
  | some _ => s
  | none =>
    match group with
    | .Single | .Agents | .DBServers =>
      let requests : ResourceList :=
        match s.Resources.Requests with
        | none => [] -- make(map[v1.ResourceName]resource.Quantity)
        | some r => r
      { s with Resources :=
          { s.Resources with
            Requests :=
              some (ResourceList.set requests ResourceStorage (Quantity.MustParse "8Gi")) } }
    | _ => s

/-- `ServerGroupSpec.SetDefaults` (the receiver is updated in place; here the
updated spec is returned): its two statements in sequence. -/
def ServerGroupSpec.SetDefaults (s : ServerGroupSpec) (group : ServerGroup) (used : Bool)
    (mode : DeploymentMode) : ServerGroupSpec :=
  (s.setDefaultCount group used mode).setDefaultStorageRequest group

/-- `ServerGroupSpec.SetDefaultsFrom` -/
def ServerGroupSpec.SetDefaultsFrom (s : ServerGroupSpec) (source : ServerGroupSpec) :
    ServerGroupSpec :=
  let s1 := if s.Count = none then { s with Count := util.IntOrNil source.Count } else s
  let s2 := if s1.Args = none then { s1 with Args := source.Args } else s1
  let s3 :=
    if s2.StorageClassName = none then
      { s2 with StorageClassName := util.StringOrNil source.StorageClassName }
    else s2
  s3

/-- `ServerGroupSpec.ResetImmutableFields`: the receiver `s` is the original;
the result is the updated target together with the list of reset fields. -/
def ServerGroupSpec.ResetImmutableFields (s : ServerGroupSpec) (group : ServerGroup)
    (fieldPrefix : String) (target : ServerGroupSpec) : ServerGroupSpec × List String :=
  let resetFields : List String := []
  let (target, resetFields) :=
    if group = ServerGroup.Agents then
      if s.GetCount ≠ target.GetCount then
        ({ target with Count := util.IntOrNil s.Count }, resetFields ++ [fieldPrefix ++ ".count"])
      else (target, resetFields)
    else (target, resetFields)
  if s.GetStorageClassName ≠ target.GetStorageClassName then
    ({ target with StorageClassName := util.StringOrNil s.StorageClassName },
      resetFields ++ [fieldPrefix ++ ".storageClassName"])
  else (target, resetFields)

/-! ## Status model and plan data (API package) -/

/-- Modelled from the spec: the `MemberPhase` enumeration (None, Pending,
Creating, Created, Rotating, Upgrading, Failed). The builder only tests a
phase for being `Created`. -/
inductive MemberPhase where
  | None
  | Pending
  | Creating
  | Created
  | Rotating
  | Upgrading
  | Failed
  deriving DecidableEq, Repr

/-- Modelled from the spec: a `MemberStatus` record, with the fields the
builder reads. -/
structure MemberStatus where
  ID : String
  Phase : MemberPhase
  PodName : String
  PersistentVolumeClaimName : String
  deriving DecidableEq, Repr

/-- A `MemberStatusList`. -/
abbrev MemberStatusList := List MemberStatus

/-- Modelled from the spec: `DeploymentStatusMembers`, one member list per
group. -/
structure DeploymentStatusMembers where
  Single : MemberStatusList
  Agents : MemberStatusList
  DBServers : MemberStatusList
  Coordinators : MemberStatusList
  SyncMasters : MemberStatusList
  SyncWorkers : MemberStatusList
  deriving DecidableEq, Repr

/-- Modelled from the spec: `DeploymentStatusMembers.ForeachServerGroup`, which
calls `cb` for every group "in a fixed, deterministic order" (the order of the
group enumeration) and stops at the first error. The callback updates the
state `σ` that a Go closure keeps in captured variables. -/
def DeploymentStatusMembers.ForeachServerGroup {σ ε : Type} (ds : DeploymentStatusMembers)
    (cb : ServerGroup → MemberStatusList → σ → σ × Option ε) (s : σ) : σ × Option ε :=
  match cb .Single ds.Single s with
  | (s, some err) => (s, some err)
  | (s, none) =>
  match cb .Agents ds.Agents s with
  | (s, some err) => (s, some err)
  | (s, none) =>
  match cb .DBServers ds.DBServers s with
  | (s, some err) => (s, some err)
  | (s, none) =>
  match cb .Coordinators ds.Coordinators s with
  | (s, some err) => (s, some err)
  | (s, none) =>
  match cb .SyncMasters ds.SyncMasters s with
  | (s, some err) => (s, some err)
  | (s, none) =>
  match cb .SyncWorkers ds.SyncWorkers s with
  | (s, some err) => (s, some err)
  | (s, none) => (s, none)

/-- The members in the order `ForeachServerGroup` followed by `range members`
visits them, each with its group. -/
def DeploymentStatusMembers.scanOrder (ds : DeploymentStatusMembers) :
    List (ServerGroup × MemberStatus) :=
  ds.Single.map (fun m => (ServerGroup.Single, m))
    ++ ds.Agents.map (fun m => (ServerGroup.Agents, m))
    ++ ds.DBServers.map (fun m => (ServerGroup.DBServers, m))
    ++ ds.Coordinators.map (fun m => (ServerGroup.Coordinators, m))
    ++ ds.SyncMasters.map (fun m => (ServerGroup.SyncMasters, m))
    ++ ds.SyncWorkers.map (fun m => (ServerGroup.SyncWorkers, m))

/-- Modelled from the spec: `DeploymentStatus`, of which the builder reads the
members only. -/
structure DeploymentStatus where
  Members : DeploymentStatusMembers
  deriving DecidableEq, Repr

/-- Modelled from the spec: `DeploymentSpec`, with the mode (as `GetMode`
returns it) and the six group specs. -/
structure DeploymentSpec where
  Mode : DeploymentMode
  Single : ServerGroupSpec
  Agents : ServerGroupSpec
  DBServers : ServerGroupSpec
  Coordinators : ServerGroupSpec
  SyncMasters : ServerGroupSpec
  SyncWorkers : ServerGroupSpec
  deriving DecidableEq, Repr

/-- `DeploymentSpec.GetMode` -/
def DeploymentSpec.GetMode (spec : DeploymentSpec) : DeploymentMode := spec.Mode

/-- `DeploymentSpec.GetServerGroupSpec` -/
def DeploymentSpec.GetServerGroupSpec (spec : DeploymentSpec) : ServerGroup → ServerGroupSpec
  | .Single => spec.Single
  | .Agents => spec.Agents
  | .DBServers => spec.DBServers
  | .Coordinators => spec.Coordinators
  | .SyncMasters => spec.SyncMasters
  | .SyncWorkers => spec.SyncWorkers

/-- Modelled from the spec: the `ActionType` enumeration. -/
inductive ActionType where
  | AddMember
  | WaitForMemberUp
  | CleanOutMember
  | ShutdownMember
  | RemoveMember
  | RotateMember
  deriving DecidableEq, Repr

/-- Modelled from the spec: an `Action`: a type, a target group and a member
ID. -/
structure Action where
  /-- The Go field `Type`. -/
  Type_ : ActionType
  Group : ServerGroup
  MemberID : String
  deriving DecidableEq, Repr

/-- A `Plan` is an ordered sequence of actions. -/
abbrev Plan := List Action

/-- Modelled from the spec: the sentinel member ID "use the ID produced by the
immediately preceding action". -/
def MemberIDPreviousAction : String := "@previous"

/-- Modelled from the spec: `NewAction(actionType, group, memberID)`. -/
def NewAction (actionType : ActionType) (group : ServerGroup) (memberID : String) : Action :=
  { Type_ := actionType, Group := group, MemberID := memberID }

/-! ## Collaborators of the plan builder (`k8sutil`, `v1`) -/

/-- A `v1.PersistentVolumeClaimSpec`, with the field the builder reads. -/
structure PersistentVolumeClaimSpec where
  StorageClassName : Option String
  deriving DecidableEq, Repr

/-- Modelled from the spec: a `v1.PersistentVolumeClaim` as the builder sees
it: the claim's configured storage class and the boolean "filesystem resize
pending" read from the claim's status. -/
structure PersistentVolumeClaim where
  Spec : PersistentVolumeClaimSpec
  FileSystemResizePending : Bool
  deriving DecidableEq, Repr

/-- Modelled from the spec: `k8sutil.IsPersistentVolumeClaimFileSystemResizePending`. -/
def IsPersistentVolumeClaimFileSystemResizePending (pvc : PersistentVolumeClaim) : Bool :=
  pvc.FileSystemResizePending

/-- The stable reason code of an event. -/
inductive EventReason where
  | CannotChangeStorageClass
  deriving DecidableEq, Repr

/-- Modelled from the spec: a `k8sutil.Event`: "a stable reason code, the
target member identifier, the group's role label, and a human-readable cause
string". -/
structure Event where
  Reason : EventReason
  MemberID : String
  Role : String
  Cause : String
  deriving DecidableEq, Repr

/-- Modelled from the spec: `k8sutil.NewCannotChangeStorageClassEvent` (the
`apiObject` argument only names the deployment the event is attached to). -/
def NewCannotChangeStorageClassEvent (memberID role subReason : String) : Event :=
  { Reason := .CannotChangeStorageClass, MemberID := memberID, Role := role, Cause := subReason }

/-- What the builder writes to its logger. -/
inductive LogEntry where
  /-- `log.Warn()...Msg("Failed to get PVC")` with the role, member ID and error -/
  | FailedToGetPVC (role id err : String)
  /-- `log.Debug()...Msg("Storage class has changed - pod needs replacement")` -/
  | StorageClassChanged (podName pvcStorageClass groupStorageClass : String)
  deriving DecidableEq, Repr

/-- The `getPVC` callback: a claim or an error, by claim name. -/
abbrev GetPVC := String → Except String PersistentVolumeClaim

/-- The sibling planner `createRotateMemberPlan(log, member, group, reason)`,
which is outside the embedded files and is taken as a parameter. -/
abbrev RotateMemberPlanner := MemberStatus → ServerGroup → String → Plan

/-! ## `createRotateServerStoragePlan` (plan_builder_storage.go) -/

/-- The variables the builder's closure updates: the `plan`, and what it has
sent to its collaborators so far: the events passed to `createEvent`, the
claim names passed to `getPVC`, and the log entries. -/
structure BuilderState where
  plan : Plan
  events : List Event
  pvcCalls : List String
  log : List LogEntry
  deriving DecidableEq, Repr

/-- The state before the scan: `var plan api.Plan`, nothing sent. -/
def BuilderState.init : BuilderState := { plan := [], events := [], pvcCalls := [], log := [] }

/-- The body of `for _, m := range members` in `createRotateServerStoragePlan`. -/
def scanMember (getPVC : GetPVC) (createRotateMemberPlan : RotateMemberPlanner)
    (spec : DeploymentSpec) (group : ServerGroup) (st : BuilderState) (m : MemberStatus) :
    BuilderState :=
  if st.plan.length > 0 then
    -- Only 1 change at a time
    st
  else if m.Phase ≠ MemberPhase.Created then
    -- Only make changes when phase is created
    st
  else if m.PersistentVolumeClaimName = "" then
    -- Plan is irrelevant without PVC
    st
  else
    let groupSpec := spec.GetServerGroupSpec group
    let storageClassName := groupSpec.GetStorageClassName
    -- Load PVC
    let st := { st with pvcCalls := st.pvcCalls ++ [m.PersistentVolumeClaimName] }
    match getPVC m.PersistentVolumeClaimName with
    | .error err =>
      { st with log := st.log ++ [LogEntry.FailedToGetPVC group.AsRole m.ID err] }
    | .ok pvc =>
      let replacementNeeded : Bool :=
        decide (util.StringOrDefault pvc.Spec.StorageClassName ≠ storageClassName
          ∧ storageClassName ≠ "")
      let st :=
        if replacementNeeded then
          -- Storageclass has changed
          { st with log := st.log ++ [LogEntry.StorageClassChanged m.PodName
              (util.StringOrDefault pvc.Spec.StorageClassName) storageClassName] }
        else st
      let rotationNeeded : Bool := IsPersistentVolumeClaimFileSystemResizePending pvc
      if replacementNeeded then
        if group ≠ ServerGroup.Agents ∧ group ≠ ServerGroup.DBServers then
          -- Only agents & dbservers are allowed to change their storage class.
          { st with events := st.events ++
              [NewCannotChangeStorageClassEvent m.ID group.AsRole "Not supported"] }
        else
          let plan := st.plan
          let plan :=
            if group ≠ ServerGroup.Agents then
              -- Scale up, so we're sure that a new member is available
              plan ++ [NewAction .AddMember group "",
                NewAction .WaitForMemberUp group MemberIDPreviousAction]
            else plan
          let plan :=
            if group = ServerGroup.DBServers then
              -- Cleanout
              plan ++ [NewAction .CleanOutMember group m.ID]
            else plan
          -- Shutdown & remove the server
          let plan := plan ++ [NewAction .ShutdownMember group m.ID,
            NewAction .RemoveMember group m.ID]
          let plan :=
            if group = ServerGroup.Agents then
              -- Scale up, so we're adding the removed agent (note: with the old ID)
              plan ++ [NewAction .AddMember group m.ID,
                NewAction .WaitForMemberUp group m.ID]
            else plan
          { st with plan := plan }
      else if rotationNeeded then
        { st with plan := createRotateMemberPlan m group "Filesystem resize pending" }
      else st

/-- The callback `createRotateServerStoragePlan` hands to `ForeachServerGroup`:
the loop over the members of one group; it always returns `nil`. -/
def scanGroup (getPVC : GetPVC) (createRotateMemberPlan : RotateMemberPlanner)
    (spec : DeploymentSpec) (group : ServerGroup) (members : MemberStatusList)
    (st : BuilderState) : BuilderState × Option Unit :=
  (members.foldl (scanMember getPVC createRotateMemberPlan spec group) st, none)

/-- `createRotateServerStoragePlan`. The result's `plan` is the returned
`api.Plan`; the other fields are what was sent to `createEvent`, `getPVC` and
the logger during the call. -/
def createRotateServerStoragePlan (spec : DeploymentSpec) (status : DeploymentStatus)
    (getPVC : GetPVC) (createRotateMemberPlan : RotateMemberPlanner) : BuilderState :=
  if spec.GetMode = DeploymentMode.Single then
    -- Storage cannot be changed in single server deployments
    BuilderState.init
  else
    (status.Members.ForeachServerGroup (scanGroup getPVC createRotateMemberPlan spec)
      BuilderState.init).1

/-- The scan of a sequence of (group, member) pairs: `scanMember` applied to
each in turn. -/
def scanAll (getPVC : GetPVC) (createRotateMemberPlan : RotateMemberPlanner)
    (spec : DeploymentSpec) (st : BuilderState) (ms : List (ServerGroup × MemberStatus)) :
    BuilderState :=
  ms.foldl (fun st gm => scanMember getPVC createRotateMemberPlan spec gm.1 st gm.2) st

/-- The actions the loop body produces for one member when it is reached with
an empty plan. -/
def memberActions (getPVC : GetPVC) (createRotateMemberPlan : RotateMemberPlanner)
    (spec : DeploymentSpec) (gm : ServerGroup × MemberStatus) : Plan :=
  (scanMember getPVC createRotateMemberPlan spec gm.1 BuilderState.init gm.2).plan

/-- The members the builder's loop visits, in order: none in Single mode
(the builder returns before the scan), all of them otherwise. -/
def scannedMembers (spec : DeploymentSpec) (status : DeploymentStatus) :
    List (ServerGroup × MemberStatus) :=
  if spec.GetMode = DeploymentMode.Single then [] else status.Members.scanOrder

/-- What a later part of the scan adds to an earlier one, field by field. -/
def BuilderState.append (a b : BuilderState) : BuilderState :=
  { plan := a.plan ++ b.plan, events := a.events ++ b.events,
    pvcCalls := a.pvcCalls ++ b.pvcCalls, log := a.log ++ b.log }

/-- The minimum count of a used group as the spec words it: 2 for Single in
ResilientSingle mode, 3 for Agents, 2 for DBServers, Coordinators, SyncMasters
and SyncWorkers, all under Production; 1 in every other case. -/
def specMinCount (group : ServerGroup) (mode : DeploymentMode) (env : Environment) : Int :=
  if env = Environment.Production ∧ group = ServerGroup.Single
      ∧ mode = DeploymentMode.ResilientSingle then 2
  else if env = Environment.Production ∧ group = ServerGroup.Agents then 3
  else if env = Environment.Production
      ∧ (group = ServerGroup.DBServers ∨ group = ServerGroup.Coordinators
        ∨ group = ServerGroup.SyncMasters ∨ group = ServerGroup.SyncWorkers) then 2
  else 1

/-! ## Sample deployments -/

/-- A group spec with the given storage class and nothing else set. -/
def sampleGroupSpec (storageClassName : Option String) : ServerGroupSpec :=
  { Count := none, Args := none, StorageClassName := storageClassName,
    Resources := { Limits := none, Requests := none } }

/-- A deployment spec in which every group asks for storage class `fast`. -/
def sampleSpec (mode : DeploymentMode) : DeploymentSpec :=
  { Mode := mode
    Single := sampleGroupSpec (some "fast")
    Agents := sampleGroupSpec (some "fast")
    DBServers := sampleGroupSpec (some "fast")
    Coordinators := sampleGroupSpec (some "fast")
    SyncMasters := sampleGroupSpec (some "fast")
    SyncWorkers := sampleGroupSpec (some "fast") }

/-- A member in phase `Created` with the given ID and claim name. -/
def sampleMember (id claim : String) : MemberStatus :=
  { ID := id, Phase := .Created, PodName := "pod", PersistentVolumeClaimName := claim }

/-- A claim with storage class `slow` and no resize pending. -/
def sampleClaim : PersistentVolumeClaim :=
  { Spec := { StorageClassName := some "slow" }, FileSystemResizePending := false }

/-- A `getPVC` that finds `sampleClaim` under every name. -/
def sampleGetPVC : GetPVC := fun _ => .ok sampleClaim

/-- A rotate-member planner returning a one-step plan. -/
def sampleRotate : RotateMemberPlanner := fun m g _ => [NewAction .RotateMember g m.ID]

/-- A status with no members. -/
def emptyMembers : DeploymentStatusMembers :=
  { Single := [], Agents := [], DBServers := [], Coordinators := [], SyncMasters := [],
    SyncWorkers := [] }

/-- One agent `a1` and one dbserver `d1`, both with a claim. -/
def sampleStatus : DeploymentStatus :=
  { Members := { emptyMembers with
      Agents := [sampleMember "a1" "pvc-a1"], DBServers := [sampleMember "d1" "pvc-d1"] } }

/-- One dbserver `d1` with a claim. -/
def sampleStatusDBServer : DeploymentStatus :=
  { Members := { emptyMembers with DBServers := [sampleMember "d1" "pvc-d1"] } }

/-- An agent `a0` that is still being created, and one dbserver `d1`. -/
def sampleStatusCreating : DeploymentStatus :=
  { Members := { emptyMembers with
      Agents := [{ sampleMember "a0" "pvc-a0" with Phase := .Creating }],
      DBServers := [sampleMember "d1" "pvc-d1"] } }

/-- One coordinator `c1` with a claim. -/
def sampleStatusCoordinator : DeploymentStatus :=
  { Members := { emptyMembers with Coordinators := [sampleMember "c1" "pvc-c1"] } }

/-- Two coordinators `c1` and `c2`, both with a claim. -/
def sampleStatusCoordinators : DeploymentStatus :=
  { Members := { emptyMembers with
      Coordinators := [sampleMember "c1" "pvc-c1", sampleMember "c2" "pvc-c2"] } }

/-- A claim with the desired storage class `fast` and a resize pending. -/
def sampleClaimResizing : PersistentVolumeClaim :=
  { Spec := { StorageClassName := some "fast" }, FileSystemResizePending := true }

/-- A `getPVC` under which the claim of `c1` has class `slow` and every other
claim has the desired class `fast` and a resize pending. -/
def sampleGetPVCCoordinator : GetPVC := fun name =>
  if name = "pvc-c1" then .ok sampleClaim else .ok sampleClaimResizing

/-! ## `BootstrapSpec` (bootstrap.go) -/

/-- The constant `UserNameRoot`, the root user name. -/
def UserNameRoot : String := "root"

/-- The type `PasswordSecretName`, a string. -/
abbrev PasswordSecretName := String

/-- The constant `PasswordSecretNameNone`, the magic value for no action. -/
def PasswordSecretNameNone : PasswordSecretName := "None"

/-- The constant `PasswordSecretNameAuto`, the magic value for an autogenerated
name. -/
def PasswordSecretNameAuto : PasswordSecretName := "Auto"

/-- The type `PasswordSecretNameList`, a Go map from user name to secret name:
an association list read by its first matching key, whose order is the order
in which `range` visits the entries. A Go map holds every key once. -/
abbrev PasswordSecretNameList := List (String × PasswordSecretName)

/-- Go map write `m[k] = v` on a non-nil map: replaces the value of an existing
key in place, or adds the key. -/
def PasswordSecretNameList.set :
    PasswordSecretNameList → String → PasswordSecretName → PasswordSecretNameList
  | [], k, v => [(k, v)]
  | (k', v') :: rest, k, v =>
    if k' = k then (k', v) :: rest else (k', v') :: PasswordSecretNameList.set rest k v

/-- The struct `BootstrapSpec`; `none` is the nil map. -/
structure BootstrapSpec where
  PasswordSecretNames : Option PasswordSecretNameList
  deriving DecidableEq, Repr

/-- `PasswordSecretName.IsNone`: true if `p` is empty or None. -/
def PasswordSecretName.IsNone (p : PasswordSecretName) : Bool :=
  p = PasswordSecretNameNone || p = ""

/-- `PasswordSecretName.IsAuto`: true if `p` is Auto. -/
def PasswordSecretName.IsAuto (p : PasswordSecretName) : Bool :=
  p = PasswordSecretNameAuto

/-- A character a resource name may hold: a lowercase letter, a digit, `-` or
`.`. -/
def isResourceNameChar (c : Char) : Bool :=
  c.isLower || c.isDigit || c = '-' || c = '.'

/-- Modelled from the spec: `k8sutil.ValidateResourceName`, which is outside the
embedded files: "a valid resource-name token (lowercase alphanumerics plus
limited punctuation)", with names holding an uppercase letter rejected. The
punctuation is taken to be `-` and `.`, and the empty name is rejected, as the
tests of the TLS spec require. -/
def ValidateResourceName (name : String) : Except String Unit :=
  if name ≠ "" ∧ name.toList.all isResourceNameChar = true then .ok ()
  else .error ("Name '" ++ name ++ "' is not a valid resource name")

/-- `PasswordSecretName.Validate` -/
def PasswordSecretName.Validate (p : PasswordSecretName) : Except String Unit :=
  if ¬ PasswordSecretName.IsNone p = true then
    match ValidateResourceName p with
    | .error err => .error err
    | .ok _ => .ok ()
  else .ok ()

/-- `PasswordSecretNameList.GetSecretName`, on a possibly nil map. -/
def PasswordSecretNameList.GetSecretName (s : Option PasswordSecretNameList) (user : String) :
    PasswordSecretName :=
  match s with
  | some names =>
    match List.lookup user names with
    | some secretname => secretname
    | none => PasswordSecretNameNone
  | none => PasswordSecretNameNone

/-- `getSecretNameForUserPassword`, the default secret name for the given
user. -/
def getSecretNameForUserPassword (deploymentname username : String) : PasswordSecretName :=
  deploymentname ++ "-" ++ username ++ "-password"

/-- The loop of `BootstrapSpec.Validate` over the entries of the map: the first
error ends it. -/
def BootstrapSpec.validateEntries : PasswordSecretNameList → Except String Unit
  | [] => .ok ()
  | (_, secretname) :: rest =>
    match PasswordSecretName.Validate secretname with
    | .error err => .error err
    | .ok _ => BootstrapSpec.validateEntries rest

/-- `BootstrapSpec.Validate`; a `range` over the nil map visits nothing. -/
def BootstrapSpec.Validate (b : BootstrapSpec) : Except String Unit :=
  match b.PasswordSecretNames with
  | none => .ok ()
  | some names => BootstrapSpec.validateEntries names

/-- The first statement of the `else` branch of `BootstrapSpec.SetDefaults`:
check if root is specified. -/
def BootstrapSpec.setDefaultRoot (names : PasswordSecretNameList) (deploymentname : String) :
    PasswordSecretNameList :=
  match List.lookup UserNameRoot names with
  | some secretname =>
    if PasswordSecretName.IsAuto secretname = true then
      PasswordSecretNameList.set names UserNameRoot
        (getSecretNameForUserPassword deploymentname UserNameRoot)
    else names
  | none =>
    -- implicit default
    PasswordSecretNameList.set names UserNameRoot
      (getSecretNameForUserPassword deploymentname UserNameRoot)

/-- The body of `for user, secretname := range b.PasswordSecretNames` in
`BootstrapSpec.SetDefaults`, on the map `names` and the visited entry. -/
def BootstrapSpec.fillUser (deploymentname : String) (names : PasswordSecretNameList)
    (entry : String × PasswordSecretName) : PasswordSecretNameList :=
  if entry.1 ≠ UserNameRoot then
    if PasswordSecretName.IsAuto entry.2 = true then
      PasswordSecretNameList.set names entry.1
        (getSecretNameForUserPassword deploymentname entry.1)
    else names
  else names

/-- The second statement of the `else` branch of `BootstrapSpec.SetDefaults`:
fill in values for all users. The loop visits every entry the map has when the
loop starts; its body writes only the key it is visiting. -/
def BootstrapSpec.fillUsers (names : PasswordSecretNameList) (deploymentname : String) :
    PasswordSecretNameList :=
  names.foldl (BootstrapSpec.fillUser deploymentname) names

/-- `BootstrapSpec.SetDefaults` (the receiver is updated in place; here the
updated spec is returned). -/
def BootstrapSpec.SetDefaults (b : BootstrapSpec) (deploymentname : String) : BootstrapSpec :=
  match b.PasswordSecretNames with
  | none =>
    { PasswordSecretNames :=
        some [(UserNameRoot, getSecretNameForUserPassword deploymentname UserNameRoot)] }
  | some names =>
    { PasswordSecretNames :=
        some (BootstrapSpec.fillUsers (BootstrapSpec.setDefaultRoot names deploymentname)
          deploymentname) }

/-- A `BootstrapSpec` holds a Go map: nil, or entries with distinct keys. -/
def BootstrapSpec.WellFormed (b : BootstrapSpec) : Prop :=
  ∀ names, b.PasswordSecretNames = some names → (names.map Prod.fst).Nodup

/-! ## `AuthenticationSpec` (authentication_spec.go, known through its tests) -/

/-- Modelled from the spec: the struct `AuthenticationSpec`, which "holds a
secret-name reference for JWT signing, or the sentinel None"; the tests build
it from a `*string`. -/
structure AuthenticationSpec where
  JWTSecretName : Option String
  deriving DecidableEq, Repr

/-- Modelled from the spec: the sentinel "None" meaning authentication
disabled. -/
def JWTSecretNameDisabled : String := "None"

/-- Modelled from the spec: `AuthenticationSpec.GetJWTSecretName`, the secret
name with nil read as the empty string. -/
def AuthenticationSpec.GetJWTSecretName (s : AuthenticationSpec) : String :=
  util.StringOrDefault s.JWTSecretName

/-- Modelled from the spec: `AuthenticationSpec.IsAuthenticated`, which "is
true for every value except exactly the sentinel None". -/
def AuthenticationSpec.IsAuthenticated (s : AuthenticationSpec) : Bool :=
  s.GetJWTSecretName ≠ JWTSecretNameDisabled

/-- Modelled from the spec: `AuthenticationSpec.ResetImmutableFields`, whose
body is outside the embedded files. The spec makes the JWT secret name an
immutable field: a violation is healed with the original's value and its path
is returned. What counts as a violation is fixed by
`TestAuthenticationSpecResetImmutableFields`: a change of name from `foo` to
`foo2` is a valid change, switching authentication on or off is not. The
receiver `s` is the original; the result is the updated target and the list
of reset fields. -/
def AuthenticationSpec.ResetImmutableFields (s : AuthenticationSpec) (fieldPrefix : String)
    (target : AuthenticationSpec) : AuthenticationSpec × List String :=
  if s.IsAuthenticated ≠ target.IsAuthenticated then
    ({ target with JWTSecretName := util.StringOrNil s.JWTSecretName },
      [fieldPrefix ++ ".jwtSecretName"])
  else (target, [])

/-- One row of the table of `TestAuthenticationSpecResetImmutableFields`. -/
structure AuthenticationResetTest where
  Original : AuthenticationSpec
  Target : AuthenticationSpec
  Expected : AuthenticationSpec
  Result : List String
  deriving DecidableEq, Repr

/-- The table of `TestAuthenticationSpecResetImmutableFields`
(authentication_spec_test.go); a nil `Result` is the empty list. -/
def authenticationResetTests : List AuthenticationResetTest :=
  [ -- Valid "changes"
    { Original := ⟨some "None"⟩, Target := ⟨some "None"⟩, Expected := ⟨some "None"⟩, Result := [] },
    { Original := ⟨some "foo"⟩, Target := ⟨some "foo"⟩, Expected := ⟨some "foo"⟩, Result := [] },
    { Original := ⟨some "foo"⟩, Target := ⟨some "foo2"⟩, Expected := ⟨some "foo2"⟩, Result := [] },
    -- Invalid changes
    { Original := ⟨some "foo"⟩, Target := ⟨some "None"⟩, Expected := ⟨some "foo"⟩,
      Result := ["test.jwtSecretName"] },
    { Original := ⟨some "None"⟩, Target := ⟨some "foo"⟩, Expected := ⟨some "None"⟩,
      Result := ["test.jwtSecretName"] } ]

/-! ## Members the scan skips -/

/-- The two guards of the loop body that skip a member before its claim is
read: the phase is not Created, or there is no claim name. -/
def MemberStatus.skipped (m : MemberStatus) : Bool :=
  decide (m.Phase ≠ MemberPhase.Created) || decide (m.PersistentVolumeClaimName = "")

/-- The status with the members removed that the scan skips. -/
def DeploymentStatus.withoutSkipped (status : DeploymentStatus) : DeploymentStatus :=
  { Members :=
      { Single := status.Members.Single.filter (fun m => !m.skipped)
        Agents := status.Members.Agents.filter (fun m => !m.skipped)
        DBServers := status.Members.DBServers.filter (fun m => !m.skipped)
        Coordinators := status.Members.Coordinators.filter (fun m => !m.skipped)
        SyncMasters := status.Members.SyncMasters.filter (fun m => !m.skipped)
        SyncWorkers := status.Members.SyncWorkers.filter (fun m => !m.skipped) } }

/-! ## More sample data -/

/-- A bootstrap spec with an autogenerated root and user, a disabled user, an
empty entry and a concrete name. -/
def sampleBootstrap : BootstrapSpec :=
  { PasswordSecretNames := some [("alice", "Auto"), ("root", "Auto"), ("bob", "None"),
      ("carol", ""), ("dave", "dave-secret")] }

/-- An agent `a0` still being created, an agent `a1` without a claim, and one
dbserver `d1`. -/
def sampleStatusSkipped : DeploymentStatus :=
  { Members := { emptyMembers with
      Agents := [{ sampleMember "a0" "pvc-a0" with Phase := .Creating }, sampleMember "a1" ""],
      DBServers := [sampleMember "d1" "pvc-d1"] } }

/-- A claim without a storage class (nil) and no resize pending. -/
def sampleClaimUnset : PersistentVolumeClaim :=
  { Spec := { StorageClassName := none }, FileSystemResizePending := false }

/-- A claim with the empty storage class and no resize pending. -/
def sampleClaimEmpty : PersistentVolumeClaim :=
  { Spec := { StorageClassName := some "" }, FileSystemResizePending := false }

/-- A `getPVC` under which the claim of `d1` has no storage class and every
other claim has the empty one. -/
def sampleGetPVCUnset : GetPVC := fun name =>
  if name = "pvc-d1" then .ok sampleClaimUnset else .ok sampleClaimEmpty

/-- A `getPVC` that fails for the claim of `a1` and finds `sampleClaim`
otherwise. -/
def sampleGetPVCFailing : GetPVC := fun name =>
  if name = "pvc-a1" then .error "not found" else .ok sampleClaim

/-- A claim with storage class `slow` and a resize pending. -/
def sampleClaimSlowResizing : PersistentVolumeClaim :=
  { Spec := { StorageClassName := some "slow" }, FileSystemResizePending := true }

/-- A `getPVC` that finds `sampleClaimSlowResizing` under every name. -/
def sampleGetPVCSlowResizing : GetPVC := fun _ => .ok sampleClaimSlowResizing

/-! ## Basic facts about the scan -/

theorem scanMember_of_plan_ne_nil (getPVC : GetPVC) (rot : RotateMemberPlanner)
    (spec : DeploymentSpec) (g : ServerGroup) (st : BuilderState) (m : MemberStatus)
    (h : st.plan ≠ []) : scanMember getPVC rot spec g st m = st := by
  have : st.plan.length > 0 := List.length_pos.mpr h
  simp [scanMember, this]

theorem scanAll_of_plan_ne_nil (getPVC : GetPVC) (rot : RotateMemberPlanner)
    (spec : DeploymentSpec) (ms : List (ServerGroup × MemberStatus)) (st : BuilderState)
    (h : st.plan ≠ []) : scanAll getPVC rot spec st ms = st := by
  induction ms with
  | nil => rfl
  | cons x xs ih =>
    simp only [scanAll, List.foldl_cons] at ih ⊢
    rw [scanMember_of_plan_ne_nil getPVC rot spec x.1 st x.2 h]
    exact ih

theorem scanAll_append (getPVC : GetPVC) (rot : RotateMemberPlanner)
    (spec : DeploymentSpec) (st : BuilderState) (xs ys : List (ServerGroup × MemberStatus)) :
    scanAll getPVC rot spec st (xs ++ ys)
      = scanAll getPVC rot spec (scanAll getPVC rot spec st xs) ys := by
  simp [scanAll, List.foldl_append]

theorem createRotateServerStoragePlan_eq_scanAll (spec : DeploymentSpec)
    (status : DeploymentStatus) (getPVC : GetPVC) (rot : RotateMemberPlanner)
    (h : spec.GetMode ≠ DeploymentMode.Single) :
    createRotateServerStoragePlan spec status getPVC rot
      = scanAll getPVC rot spec BuilderState.init status.Members.scanOrder := by
  simp [createRotateServerStoragePlan, h, DeploymentStatusMembers.ForeachServerGroup,
    scanGroup, scanAll, DeploymentStatusMembers.scanOrder, List.foldl_append, List.foldl_map]

theorem createRotateServerStoragePlan_eq_scanned (spec : DeploymentSpec)
    (status : DeploymentStatus) (getPVC : GetPVC) (rot : RotateMemberPlanner) :
    createRotateServerStoragePlan spec status getPVC rot
      = scanAll getPVC rot spec BuilderState.init (scannedMembers spec status) := by
  by_cases h : spec.GetMode = DeploymentMode.Single
  · simp [createRotateServerStoragePlan, scannedMembers, h, scanAll]
  · rw [createRotateServerStoragePlan_eq_scanAll spec status getPVC rot h]
    simp [scannedMembers, h]

theorem BuilderState.append_init (st : BuilderState) : st.append BuilderState.init = st := by
  simp [BuilderState.append, BuilderState.init]

/-- A member reached with an empty plan adds to the state exactly what it
produces from the initial state. -/
theorem scanMember_eq_append (getPVC : GetPVC) (rot : RotateMemberPlanner)
    (spec : DeploymentSpec) (g : ServerGroup) (st : BuilderState) (m : MemberStatus)
    (h : st.plan = []) :
    scanMember getPVC rot spec g st m
      = st.append (scanMember getPVC rot spec g BuilderState.init m) := by
  obtain ⟨plan, events, pvcCalls, log⟩ := st
  simp only at h
  subst h
  by_cases h1 : m.Phase = MemberPhase.Created
  swap
  · simp [scanMember, BuilderState.init, BuilderState.append, h1]
  by_cases h2 : m.PersistentVolumeClaimName = ""
  · simp [scanMember, BuilderState.init, BuilderState.append, h1, h2]
  cases h3 : getPVC m.PersistentVolumeClaimName with
  | error e => simp [scanMember, BuilderState.init, BuilderState.append, h1, h2, h3]
  | ok pvc =>
    by_cases h4 : util.StringOrDefault pvc.Spec.StorageClassName
          ≠ (spec.GetServerGroupSpec g).GetStorageClassName
        ∧ (spec.GetServerGroupSpec g).GetStorageClassName ≠ ""
    · cases g <;>
        simp [scanMember, BuilderState.init, BuilderState.append, h1, h2, h3, h4]
    · cases h5 : IsPersistentVolumeClaimFileSystemResizePending pvc <;>
        simp [scanMember, BuilderState.init, BuilderState.append, h1, h2, h3, h4, h5]

theorem scanMember_plan (getPVC : GetPVC) (rot : RotateMemberPlanner)
    (spec : DeploymentSpec) (g : ServerGroup) (st : BuilderState) (m : MemberStatus)
    (h : st.plan = []) :
    (scanMember getPVC rot spec g st m).plan = memberActions getPVC rot spec (g, m) := by
  rw [scanMember_eq_append getPVC rot spec g st m h]
  simp [BuilderState.append, h, memberActions]

theorem scanMember_plan_congr (getPVC : GetPVC) (rot : RotateMemberPlanner)
    (spec : DeploymentSpec) (g : ServerGroup) (st st' : BuilderState) (m : MemberStatus)
    (h : st.plan = st'.plan) :
    (scanMember getPVC rot spec g st m).plan = (scanMember getPVC rot spec g st' m).plan := by
  by_cases h0 : st.plan = []
  · rw [scanMember_plan getPVC rot spec g st m h0,
      scanMember_plan getPVC rot spec g st' m (h ▸ h0)]
  · rw [scanMember_of_plan_ne_nil getPVC rot spec g st m h0,
      scanMember_of_plan_ne_nil getPVC rot spec g st' m (h ▸ h0)]
    exact h

theorem scanAll_plan_congr (getPVC : GetPVC) (rot : RotateMemberPlanner)
    (spec : DeploymentSpec) (ms : List (ServerGroup × MemberStatus)) (st st' : BuilderState)
    (h : st.plan = st'.plan) :
    (scanAll getPVC rot spec st ms).plan = (scanAll getPVC rot spec st' ms).plan := by
  induction ms generalizing st st' with
  | nil => simpa [scanAll] using h
  | cons x xs ih =>
    simp only [scanAll, List.foldl_cons] at ih ⊢
    exact ih _ _ (scanMember_plan_congr getPVC rot spec x.1 st st' x.2 h)

/-- Members that produce no actions leave the plan empty. -/
theorem scanAll_plan_nil (getPVC : GetPVC) (rot : RotateMemberPlanner)
    (spec : DeploymentSpec) (ms : List (ServerGroup × MemberStatus)) (st : BuilderState)
    (h : st.plan = []) (hms : ∀ y ∈ ms, memberActions getPVC rot spec y = []) :
    (scanAll getPVC rot spec st ms).plan = [] := by
  induction ms generalizing st with
  | nil => simpa [scanAll] using h
  | cons x xs ih =>
    simp only [scanAll, List.foldl_cons] at ih ⊢
    apply ih
    · rw [scanMember_plan getPVC rot spec x.1 st x.2 h]
      exact hms x (List.mem_cons_self _ _)
    · intro y hy
      exact hms y (List.mem_cons_of_mem _ hy)

/-- The scan stops changing anything after the first member that produces
actions. -/
theorem scanAll_first_producer (getPVC : GetPVC) (rot : RotateMemberPlanner)
    (spec : DeploymentSpec) (pre post : List (ServerGroup × MemberStatus))
    (x : ServerGroup × MemberStatus)
    (hpre : ∀ y ∈ pre, memberActions getPVC rot spec y = [])
    (hx : memberActions getPVC rot spec x ≠ []) :
    scanAll getPVC rot spec BuilderState.init (pre ++ x :: post)
        = scanAll getPVC rot spec BuilderState.init (pre ++ [x])
      ∧ (scanAll getPVC rot spec BuilderState.init (pre ++ [x])).plan
        = memberActions getPVC rot spec x := by
  have h1 : (scanAll getPVC rot spec BuilderState.init pre).plan = [] :=
    scanAll_plan_nil getPVC rot spec pre _ rfl hpre
  have h2 : (scanAll getPVC rot spec BuilderState.init (pre ++ [x])).plan
      = memberActions getPVC rot spec x := by
    rw [scanAll_append]
    simp only [scanAll, List.foldl_cons, List.foldl_nil]
    exact scanMember_plan getPVC rot spec x.1 _ x.2 h1
  refine ⟨?_, h2⟩
  have : pre ++ x :: post = (pre ++ [x]) ++ post := by simp
  rw [this, scanAll_append]
  exact scanAll_of_plan_ne_nil getPVC rot spec post _ (by rw [h2]; exact hx)

/-- A member that produces no actions can be left out without changing the
plan. -/
theorem scanAll_skip_plan (getPVC : GetPVC) (rot : RotateMemberPlanner)
    (spec : DeploymentSpec) (pre post : List (ServerGroup × MemberStatus))
    (x : ServerGroup × MemberStatus) (st : BuilderState)
    (hx : memberActions getPVC rot spec x = []) :
    (scanAll getPVC rot spec st (pre ++ x :: post)).plan
      = (scanAll getPVC rot spec st (pre ++ post)).plan := by
  rw [scanAll_append, scanAll_append]
  simp only [scanAll, List.foldl_cons]
  apply scanAll_plan_congr
  by_cases h0 : (scanAll getPVC rot spec st pre).plan = []
  · have := scanMember_plan getPVC rot spec x.1 _ x.2 h0
    simp only [scanAll] at this h0
    rw [this, hx, h0]
  · have := scanMember_of_plan_ne_nil getPVC rot spec x.1 _ x.2 h0
    simp only [scanAll] at this
    rw [this]

/-- What a member in need of replacement produces, by group. -/
theorem memberActions_replacement (getPVC : GetPVC) (rot : RotateMemberPlanner)
    (spec : DeploymentSpec) (g : ServerGroup) (m : MemberStatus) (pvc : PersistentVolumeClaim)
    (hphase : m.Phase = MemberPhase.Created)
    (hname : m.PersistentVolumeClaimName ≠ "")
    (hpvc : getPVC m.PersistentVolumeClaimName = .ok pvc)
    (hset : (spec.GetServerGroupSpec g).GetStorageClassName ≠ "")
    (hdiff : util.StringOrDefault pvc.Spec.StorageClassName
      ≠ (spec.GetServerGroupSpec g).GetStorageClassName) :
    memberActions getPVC rot spec (g, m) =
      match g with
      | .Agents =>
        [NewAction .ShutdownMember .Agents m.ID, NewAction .RemoveMember .Agents m.ID,
          NewAction .AddMember .Agents m.ID, NewAction .WaitForMemberUp .Agents m.ID]
      | .DBServers =>
        [NewAction .AddMember .DBServers "",
          NewAction .WaitForMemberUp .DBServers MemberIDPreviousAction,
          NewAction .CleanOutMember .DBServers m.ID,
          NewAction .ShutdownMember .DBServers m.ID, NewAction .RemoveMember .DBServers m.ID]
      | _ => [] := by
  cases g <;>
    simp [memberActions, scanMember, BuilderState.init, hphase, hname, hpvc, hset, hdiff]

/-- The whole effect of a member in need of replacement whose group may not
change its storage class. -/
theorem scanMember_gated (getPVC : GetPVC) (rot : RotateMemberPlanner)
    (spec : DeploymentSpec) (g : ServerGroup) (m : MemberStatus) (pvc : PersistentVolumeClaim)
    (st : BuilderState) (hst : st.plan = [])
    (hg : g ≠ ServerGroup.Agents ∧ g ≠ ServerGroup.DBServers)
    (hphase : m.Phase = MemberPhase.Created)
    (hname : m.PersistentVolumeClaimName ≠ "")
    (hpvc : getPVC m.PersistentVolumeClaimName = .ok pvc)
    (hset : (spec.GetServerGroupSpec g).GetStorageClassName ≠ "")
    (hdiff : util.StringOrDefault pvc.Spec.StorageClassName
      ≠ (spec.GetServerGroupSpec g).GetStorageClassName) :
    scanMember getPVC rot spec g st m =
      { plan := []
        events := st.events ++ [NewCannotChangeStorageClassEvent m.ID g.AsRole "Not supported"]
        pvcCalls := st.pvcCalls ++ [m.PersistentVolumeClaimName]
        log := st.log ++ [LogEntry.StorageClassChanged m.PodName
          (util.StringOrDefault pvc.Spec.StorageClassName)
          (spec.GetServerGroupSpec g).GetStorageClassName] } := by
  obtain ⟨hg1, hg2⟩ := hg
  simp [scanMember, hst, hphase, hname, hpvc, hset, hdiff, hg1, hg2]

theorem scanMember_events_mono (getPVC : GetPVC) (rot : RotateMemberPlanner)
    (spec : DeploymentSpec) (g : ServerGroup) (st : BuilderState) (m : MemberStatus)
    (e : Event) (he : e ∈ st.events) : e ∈ (scanMember getPVC rot spec g st m).events := by
  by_cases h0 : st.plan = []
  · rw [scanMember_eq_append getPVC rot spec g st m h0]
    exact List.mem_append_left _ he
  · rw [scanMember_of_plan_ne_nil getPVC rot spec g st m h0]
    exact he

/-- Events once emitted stay in the state for the rest of the scan. -/
theorem scanAll_events_mono (getPVC : GetPVC) (rot : RotateMemberPlanner)
    (spec : DeploymentSpec) (ms : List (ServerGroup × MemberStatus)) (st : BuilderState)
    (e : Event) (he : e ∈ st.events) : e ∈ (scanAll getPVC rot spec st ms).events := by
  induction ms generalizing st with
  | nil => simpa [scanAll] using he
  | cons x xs ih =>
    simp only [scanAll, List.foldl_cons] at ih ⊢
    exact ih _ (scanMember_events_mono getPVC rot spec x.1 st x.2 e he)

/-! ## Storage rotation plan: replacement protocols -/

/-- C1: in a deployment that is not in Single mode, when no member scanned
earlier yields actions, a DBServers member in phase Created with a non-empty
claim name whose claim is read successfully and whose group's desired storage
class is non-empty and differs from the claim's class makes the builder return
exactly AddMember(""), WaitForMemberUp(previous action), CleanOutMember(m),
ShutdownMember(m), RemoveMember(m), all for DBServers. -/
theorem createRotateServerStoragePlan_dbserver_replacement
    (spec : DeploymentSpec) (status : DeploymentStatus) (getPVC : GetPVC)
    (rot : RotateMemberPlanner) (pre post : List (ServerGroup × MemberStatus))
    (m : MemberStatus) (pvc : PersistentVolumeClaim)
    (hmode : spec.GetMode ≠ DeploymentMode.Single)
    (hscan : status.Members.scanOrder = pre ++ (ServerGroup.DBServers, m) :: post)
    (hpre : ∀ y ∈ pre, memberActions getPVC rot spec y = [])
    (hphase : m.Phase = MemberPhase.Created)
    (hname : m.PersistentVolumeClaimName ≠ "")
    (hpvc : getPVC m.PersistentVolumeClaimName = .ok pvc)
    (hset : (spec.GetServerGroupSpec .DBServers).GetStorageClassName ≠ "")
    (hdiff : (spec.GetServerGroupSpec .DBServers).GetStorageClassName
      ≠ util.StringOrDefault pvc.Spec.StorageClassName) :
    (createRotateServerStoragePlan spec status getPVC rot).plan =
      [NewAction .AddMember .DBServers "",
        NewAction .WaitForMemberUp .DBServers MemberIDPreviousAction,
        NewAction .CleanOutMember .DBServers m.ID,
        NewAction .ShutdownMember .DBServers m.ID,
        NewAction .RemoveMember .DBServers m.ID] := by
  have hact := memberActions_replacement getPVC rot spec .DBServers m pvc hphase hname hpvc hset
    (Ne.symm hdiff)
  simp only at hact
  have hfirst := scanAll_first_producer getPVC rot spec pre post (ServerGroup.DBServers, m) hpre
    (by rw [hact]; simp)
  rw [createRotateServerStoragePlan_eq_scanAll spec status getPVC rot hmode, hscan, hfirst.1,
    hfirst.2, hact]

/-- C2: in a deployment that is not in Single mode, when no member scanned
earlier yields actions, an Agents member in phase Created with a non-empty
claim name whose claim is read successfully and whose group's desired storage
class is non-empty and differs from the claim's class makes the builder return
exactly ShutdownMember(m), RemoveMember(m), AddMember(m), WaitForMemberUp(m),
all for Agents: the old ID is reused and nothing is added before the removal. -/
theorem createRotateServerStoragePlan_agent_replacement
    (spec : DeploymentSpec) (status : DeploymentStatus) (getPVC : GetPVC)
    (rot : RotateMemberPlanner) (pre post : List (ServerGroup × MemberStatus))
    (m : MemberStatus) (pvc : PersistentVolumeClaim)
    (hmode : spec.GetMode ≠ DeploymentMode.Single)
    (hscan : status.Members.scanOrder = pre ++ (ServerGroup.Agents, m) :: post)
    (hpre : ∀ y ∈ pre, memberActions getPVC rot spec y = [])
    (hphase : m.Phase = MemberPhase.Created)
    (hname : m.PersistentVolumeClaimName ≠ "")
    (hpvc : getPVC m.PersistentVolumeClaimName = .ok pvc)
    (hset : (spec.GetServerGroupSpec .Agents).GetStorageClassName ≠ "")
    (hdiff : (spec.GetServerGroupSpec .Agents).GetStorageClassName
      ≠ util.StringOrDefault pvc.Spec.StorageClassName) :
    (createRotateServerStoragePlan spec status getPVC rot).plan =
      [NewAction .ShutdownMember .Agents m.ID,
        NewAction .RemoveMember .Agents m.ID,
        NewAction .AddMember .Agents m.ID,
        NewAction .WaitForMemberUp .Agents m.ID] := by
  have hact := memberActions_replacement getPVC rot spec .Agents m pvc hphase hname hpvc hset
    (Ne.symm hdiff)
  simp only at hact
  have hfirst := scanAll_first_producer getPVC rot spec pre post (ServerGroup.Agents, m) hpre
    (by rw [hact]; simp)
  rw [createRotateServerStoragePlan_eq_scanAll spec status getPVC rot hmode, hscan, hfirst.1,
    hfirst.2, hact]

/-- The hypotheses of C1 hold for dbserver `d1` of `sampleStatusCreating`, scanned
after an agent that is still being created, and the plan is the five-step
DBServers sequence. -/
theorem createRotateServerStoragePlan_dbserver_replacement_witness :
    (createRotateServerStoragePlan (sampleSpec .Cluster) sampleStatusCreating sampleGetPVC
        sampleRotate).plan =
      [NewAction .AddMember .DBServers "",
        NewAction .WaitForMemberUp .DBServers MemberIDPreviousAction,
        NewAction .CleanOutMember .DBServers "d1",
        NewAction .ShutdownMember .DBServers "d1",
        NewAction .RemoveMember .DBServers "d1"] :=
  createRotateServerStoragePlan_dbserver_replacement (sampleSpec .Cluster) sampleStatusCreating
    sampleGetPVC sampleRotate
    [(ServerGroup.Agents, { sampleMember "a0" "pvc-a0" with Phase := .Creating })] []
    (sampleMember "d1" "pvc-d1") sampleClaim
    (by decide) (by decide) (by decide) (by decide) (by decide) rfl (by decide) (by decide)

/-- The hypotheses of C2 hold for agent `a1` of `sampleStatus`, and the plan is
the four-step Agents sequence although dbserver `d1` needs replacement too. -/
theorem createRotateServerStoragePlan_agent_replacement_witness :
    (createRotateServerStoragePlan (sampleSpec .Cluster) sampleStatus sampleGetPVC
        sampleRotate).plan =
      [NewAction .ShutdownMember .Agents "a1",
        NewAction .RemoveMember .Agents "a1",
        NewAction .AddMember .Agents "a1",
        NewAction .WaitForMemberUp .Agents "a1"] :=
  createRotateServerStoragePlan_agent_replacement (sampleSpec .Cluster) sampleStatus
    sampleGetPVC sampleRotate [] [(ServerGroup.DBServers, sampleMember "d1" "pvc-d1")]
    (sampleMember "a1" "pvc-a1") sampleClaim
    (by decide) (by decide) (by decide) (by decide) (by decide) rfl (by decide) (by decide)

/-! ## Storage rotation plan: one change at a time -/

/-- C3: for every spec and status the returned plan is the action sequence of
the first member, in scan order, that produces a non-empty one (and is empty
when no scanned member produces any); the result of the whole call is the
state right after that member, so members scanned later add no actions, no
events and no getPVC call. In particular, when that first member is an Agents
or DBServers member in need of replacement, every action of the plan targets
its group and names only that member (or the member an AddMember creates),
whatever other groups hold replaceable members. -/
theorem createRotateServerStoragePlan_single_mutation
    (spec : DeploymentSpec) (status : DeploymentStatus) (getPVC : GetPVC)
    (rot : RotateMemberPlanner) :
    ((∀ y ∈ scannedMembers spec status, memberActions getPVC rot spec y = []) →
        (createRotateServerStoragePlan spec status getPVC rot).plan = [])
    ∧ (∀ (pre post : List (ServerGroup × MemberStatus)) (x : ServerGroup × MemberStatus),
        scannedMembers spec status = pre ++ x :: post →
        (∀ y ∈ pre, memberActions getPVC rot spec y = []) →
        memberActions getPVC rot spec x ≠ [] →
          (createRotateServerStoragePlan spec status getPVC rot).plan
              = memberActions getPVC rot spec x
            ∧ createRotateServerStoragePlan spec status getPVC rot
              = scanAll getPVC rot spec BuilderState.init (pre ++ [x]))
    ∧ (∀ (pre post : List (ServerGroup × MemberStatus)) (g : ServerGroup) (m : MemberStatus)
        (pvc : PersistentVolumeClaim),
        scannedMembers spec status = pre ++ (g, m) :: post →
        (∀ y ∈ pre, memberActions getPVC rot spec y = []) →
        g = ServerGroup.Agents ∨ g = ServerGroup.DBServers →
        m.Phase = MemberPhase.Created →
        m.PersistentVolumeClaimName ≠ "" →
        getPVC m.PersistentVolumeClaimName = .ok pvc →
        (spec.GetServerGroupSpec g).GetStorageClassName ≠ "" →
        (spec.GetServerGroupSpec g).GetStorageClassName
          ≠ util.StringOrDefault pvc.Spec.StorageClassName →
          ∀ a ∈ (createRotateServerStoragePlan spec status getPVC rot).plan,
            a.Group = g
              ∧ (a.MemberID = m.ID ∨ a.MemberID = "" ∨ a.MemberID = MemberIDPreviousAction)) := by
  refine ⟨?_, ?_, ?_⟩
  · intro h
    rw [createRotateServerStoragePlan_eq_scanned]
    exact scanAll_plan_nil getPVC rot spec _ _ rfl h
  · intro pre post x hscan hpre hx
    have hfirst := scanAll_first_producer getPVC rot spec pre post x hpre hx
    rw [createRotateServerStoragePlan_eq_scanned, hscan, hfirst.1]
    exact ⟨hfirst.2, rfl⟩
  · intro pre post g m pvc hscan hpre hg hphase hname hpvc hset hdiff a ha
    have hact := memberActions_replacement getPVC rot spec g m pvc hphase hname hpvc hset
      (Ne.symm hdiff)
    have hx : memberActions getPVC rot spec (g, m) ≠ [] := by
      rw [hact]
      rcases hg with hg | hg <;> subst hg <;> simp
    have hfirst := scanAll_first_producer getPVC rot spec pre post (g, m) hpre hx
    rw [createRotateServerStoragePlan_eq_scanned, hscan, hfirst.1, hfirst.2, hact] at ha
    rcases hg with hg | hg
    · subst hg
      simp only [List.mem_cons, List.mem_singleton, List.not_mem_nil, or_false] at ha
      rcases ha with rfl | rfl | rfl | rfl <;> simp [NewAction]
    · subst hg
      simp only [List.mem_cons, List.mem_singleton, List.not_mem_nil, or_false] at ha
      rcases ha with rfl | rfl | rfl | rfl | rfl <;> simp [NewAction]

/-- In `sampleStatus` both the agent `a1` and the dbserver `d1` need replacement;
the plan is what `a1` produces and the call ends in the state reached right
after `a1`. -/
theorem createRotateServerStoragePlan_single_mutation_witness :
    (createRotateServerStoragePlan (sampleSpec .Cluster) sampleStatus sampleGetPVC
          sampleRotate).plan
        = memberActions sampleGetPVC sampleRotate (sampleSpec .Cluster)
          (ServerGroup.Agents, sampleMember "a1" "pvc-a1")
      ∧ createRotateServerStoragePlan (sampleSpec .Cluster) sampleStatus sampleGetPVC sampleRotate
        = scanAll sampleGetPVC sampleRotate (sampleSpec .Cluster) BuilderState.init
          ([] ++ [(ServerGroup.Agents, sampleMember "a1" "pvc-a1")]) :=
  (createRotateServerStoragePlan_single_mutation (sampleSpec .Cluster) sampleStatus sampleGetPVC
    sampleRotate).2.1 [] [(ServerGroup.DBServers, sampleMember "d1" "pvc-d1")]
    (ServerGroup.Agents, sampleMember "a1" "pvc-a1") (by decide) (by decide) (by decide)

/-- C4: in Single mode the builder returns an empty plan for every status,
getPVC and rotate planner, without calling getPVC and without emitting an
event. -/
theorem createRotateServerStoragePlan_single_mode
    (spec : DeploymentSpec) (status : DeploymentStatus) (getPVC : GetPVC)
    (rot : RotateMemberPlanner) (hmode : spec.GetMode = DeploymentMode.Single) :
    (createRotateServerStoragePlan spec status getPVC rot).plan = []
      ∧ (createRotateServerStoragePlan spec status getPVC rot).pvcCalls = []
      ∧ (createRotateServerStoragePlan spec status getPVC rot).events = [] := by
  simp [createRotateServerStoragePlan, hmode, BuilderState.init]

/-- In Single mode `sampleStatus`, whose agent and dbserver claims both mismatch,
yields nothing. -/
theorem createRotateServerStoragePlan_single_mode_witness :
    (createRotateServerStoragePlan (sampleSpec .Single) sampleStatus sampleGetPVC
        sampleRotate).plan = []
      ∧ (createRotateServerStoragePlan (sampleSpec .Single) sampleStatus sampleGetPVC
        sampleRotate).pvcCalls = []
      ∧ (createRotateServerStoragePlan (sampleSpec .Single) sampleStatus sampleGetPVC
        sampleRotate).events = [] :=
  createRotateServerStoragePlan_single_mode (sampleSpec .Single) sampleStatus sampleGetPVC
    sampleRotate (by decide)

/-! ## Storage rotation plan: group gating -/

/-- C5: a member reached by the scan (no earlier member produced actions) whose
group is neither Agents nor DBServers and that needs replacement adds no
actions (the plan stays empty), adds exactly one cannot-change-storage-class
event carrying its ID and its group's role, and the scan goes on with the
remaining members from that state. -/
theorem createRotateServerStoragePlan_group_gating
    (spec : DeploymentSpec) (status : DeploymentStatus) (getPVC : GetPVC)
    (rot : RotateMemberPlanner) (pre post : List (ServerGroup × MemberStatus))
    (g : ServerGroup) (m : MemberStatus) (pvc : PersistentVolumeClaim)
    (hscan : scannedMembers spec status = pre ++ (g, m) :: post)
    (hpre : ∀ y ∈ pre, memberActions getPVC rot spec y = [])
    (hg : g ≠ ServerGroup.Agents ∧ g ≠ ServerGroup.DBServers)
    (hphase : m.Phase = MemberPhase.Created)
    (hname : m.PersistentVolumeClaimName ≠ "")
    (hpvc : getPVC m.PersistentVolumeClaimName = .ok pvc)
    (hset : (spec.GetServerGroupSpec g).GetStorageClassName ≠ "")
    (hdiff : (spec.GetServerGroupSpec g).GetStorageClassName
      ≠ util.StringOrDefault pvc.Spec.StorageClassName) :
    (scanAll getPVC rot spec BuilderState.init pre).plan = []
      ∧ (scanMember getPVC rot spec g (scanAll getPVC rot spec BuilderState.init pre) m).plan = []
      ∧ (scanMember getPVC rot spec g (scanAll getPVC rot spec BuilderState.init pre) m).events
        = (scanAll getPVC rot spec BuilderState.init pre).events
          ++ [NewCannotChangeStorageClassEvent m.ID g.AsRole "Not supported"]
      ∧ createRotateServerStoragePlan spec status getPVC rot
        = scanAll getPVC rot spec
            (scanMember getPVC rot spec g (scanAll getPVC rot spec BuilderState.init pre) m)
            post := by
  have h1 : (scanAll getPVC rot spec BuilderState.init pre).plan = [] :=
    scanAll_plan_nil getPVC rot spec pre _ rfl hpre
  have h2 := scanMember_gated getPVC rot spec g m pvc _ h1 hg hphase hname hpvc hset
    (Ne.symm hdiff)
  refine ⟨h1, ?_, ?_, ?_⟩
  · rw [h2]
  · rw [h2]
  · rw [createRotateServerStoragePlan_eq_scanned, hscan, scanAll_append]
    simp [scanAll]

/-- Coordinator `c1` of `sampleStatusCoordinators` needs replacement: it yields
one event and the scan goes on to `c2`. -/
theorem createRotateServerStoragePlan_group_gating_witness :
    (scanAll sampleGetPVCCoordinator sampleRotate (sampleSpec .Cluster) BuilderState.init []).plan
        = []
      ∧ (scanMember sampleGetPVCCoordinator sampleRotate (sampleSpec .Cluster) .Coordinators
          (scanAll sampleGetPVCCoordinator sampleRotate (sampleSpec .Cluster) BuilderState.init [])
          (sampleMember "c1" "pvc-c1")).plan = []
      ∧ (scanMember sampleGetPVCCoordinator sampleRotate (sampleSpec .Cluster) .Coordinators
          (scanAll sampleGetPVCCoordinator sampleRotate (sampleSpec .Cluster) BuilderState.init [])
          (sampleMember "c1" "pvc-c1")).events
        = (scanAll sampleGetPVCCoordinator sampleRotate (sampleSpec .Cluster) BuilderState.init
            []).events
          ++ [NewCannotChangeStorageClassEvent (sampleMember "c1" "pvc-c1").ID
            ServerGroup.Coordinators.AsRole "Not supported"]
      ∧ createRotateServerStoragePlan (sampleSpec .Cluster) sampleStatusCoordinators
          sampleGetPVCCoordinator sampleRotate
        = scanAll sampleGetPVCCoordinator sampleRotate (sampleSpec .Cluster)
            (scanMember sampleGetPVCCoordinator sampleRotate (sampleSpec .Cluster) .Coordinators
              (scanAll sampleGetPVCCoordinator sampleRotate (sampleSpec .Cluster)
                BuilderState.init [])
              (sampleMember "c1" "pvc-c1"))
            [(ServerGroup.Coordinators, sampleMember "c2" "pvc-c2")] :=
  createRotateServerStoragePlan_group_gating (sampleSpec .Cluster) sampleStatusCoordinators
    sampleGetPVCCoordinator sampleRotate [] [(ServerGroup.Coordinators, sampleMember "c2" "pvc-c2")]
    .Coordinators (sampleMember "c1" "pvc-c1") sampleClaim
    (by decide) (by decide) (by decide) (by decide) (by decide) rfl (by decide) (by decide)

/-- The claim C6 makes fails for coordinator `c1` of `sampleStatusCoordinator`:
the deployment is a Cluster, `c1` is the only member, is in phase Created, its
claim is read and has class `slow` while the group asks for `fast`, and yet the
returned plan is empty, not AddMember, WaitForMemberUp, ShutdownMember,
RemoveMember. -/
theorem createRotateServerStoragePlan_coordinator_counterexample :
    (sampleSpec .Cluster).GetMode ≠ DeploymentMode.Single
      ∧ sampleStatusCoordinator.Members.scanOrder
        = [(ServerGroup.Coordinators, sampleMember "c1" "pvc-c1")]
      ∧ (sampleMember "c1" "pvc-c1").Phase = MemberPhase.Created
      ∧ (sampleMember "c1" "pvc-c1").PersistentVolumeClaimName = "pvc-c1"
      ∧ sampleGetPVC "pvc-c1" = .ok sampleClaim
      ∧ ((sampleSpec .Cluster).GetServerGroupSpec .Coordinators).GetStorageClassName = "fast"
      ∧ util.StringOrDefault sampleClaim.Spec.StorageClassName = "slow"
      ∧ (createRotateServerStoragePlan (sampleSpec .Cluster) sampleStatusCoordinator sampleGetPVC
          sampleRotate).plan = []
      ∧ (createRotateServerStoragePlan (sampleSpec .Cluster) sampleStatusCoordinator sampleGetPVC
          sampleRotate).plan
        ≠ [NewAction .AddMember .Coordinators "",
            NewAction .WaitForMemberUp .Coordinators MemberIDPreviousAction,
            NewAction .ShutdownMember .Coordinators "c1",
            NewAction .RemoveMember .Coordinators "c1"] := by
  refine ⟨by decide, by decide, by decide, by decide, rfl, by decide, by decide, by decide,
    by decide⟩

/-- C6 (amended): in a deployment that is not in Single mode, when no member
scanned earlier yields actions, a Coordinators, SyncMasters or SyncWorkers
member in phase Created whose claim's class differs from the group's non-empty
desired class produces no actions: the returned plan is the plan for the scan
without that member, and the cannot-change-storage-class event for the member
is among the emitted events. -/
theorem createRotateServerStoragePlan_other_groups_not_replaced
    (spec : DeploymentSpec) (status : DeploymentStatus) (getPVC : GetPVC)
    (rot : RotateMemberPlanner) (pre post : List (ServerGroup × MemberStatus))
    (g : ServerGroup) (m : MemberStatus) (pvc : PersistentVolumeClaim)
    (hmode : spec.GetMode ≠ DeploymentMode.Single)
    (hscan : status.Members.scanOrder = pre ++ (g, m) :: post)
    (hpre : ∀ y ∈ pre, memberActions getPVC rot spec y = [])
    (hg : g = ServerGroup.Coordinators ∨ g = ServerGroup.SyncMasters
      ∨ g = ServerGroup.SyncWorkers)
    (hphase : m.Phase = MemberPhase.Created)
    (hname : m.PersistentVolumeClaimName ≠ "")
    (hpvc : getPVC m.PersistentVolumeClaimName = .ok pvc)
    (hset : (spec.GetServerGroupSpec g).GetStorageClassName ≠ "")
    (hdiff : (spec.GetServerGroupSpec g).GetStorageClassName
      ≠ util.StringOrDefault pvc.Spec.StorageClassName) :
    memberActions getPVC rot spec (g, m) = []
      ∧ (createRotateServerStoragePlan spec status getPVC rot).plan
        = (scanAll getPVC rot spec BuilderState.init (pre ++ post)).plan
      ∧ NewCannotChangeStorageClassEvent m.ID g.AsRole "Not supported"
        ∈ (createRotateServerStoragePlan spec status getPVC rot).events := by
  have hg' : g ≠ ServerGroup.Agents ∧ g ≠ ServerGroup.DBServers := by
    rcases hg with hg | hg | hg <;> subst hg <;> decide
  have hact : memberActions getPVC rot spec (g, m) = [] := by
    have := memberActions_replacement getPVC rot spec g m pvc hphase hname hpvc hset
      (Ne.symm hdiff)
    rw [this]
    rcases hg with hg | hg | hg <;> subst hg <;> rfl
  have h1 : (scanAll getPVC rot spec BuilderState.init pre).plan = [] :=
    scanAll_plan_nil getPVC rot spec pre _ rfl hpre
  have h2 := scanMember_gated getPVC rot spec g m pvc _ h1 hg' hphase hname hpvc hset
    (Ne.symm hdiff)
  refine ⟨hact, ?_, ?_⟩
  · rw [createRotateServerStoragePlan_eq_scanAll spec status getPVC rot hmode, hscan]
    exact scanAll_skip_plan getPVC rot spec pre post (g, m) _ hact
  · rw [createRotateServerStoragePlan_eq_scanAll spec status getPVC rot hmode, hscan,
      scanAll_append]
    simp only [scanAll, List.foldl_cons]
    apply scanAll_events_mono
    simp only [scanAll] at h2
    rw [h2]
    simp

/-- Coordinator `c1` of `sampleStatusCoordinators` produces no actions and an
event; the plan is the one of the scan of `c2` alone. -/
theorem createRotateServerStoragePlan_other_groups_not_replaced_witness :
    memberActions sampleGetPVCCoordinator sampleRotate (sampleSpec .Cluster)
        (ServerGroup.Coordinators, sampleMember "c1" "pvc-c1") = []
      ∧ (createRotateServerStoragePlan (sampleSpec .Cluster) sampleStatusCoordinators
          sampleGetPVCCoordinator sampleRotate).plan
        = (scanAll sampleGetPVCCoordinator sampleRotate (sampleSpec .Cluster) BuilderState.init
            ([] ++ [(ServerGroup.Coordinators, sampleMember "c2" "pvc-c2")])).plan
      ∧ NewCannotChangeStorageClassEvent (sampleMember "c1" "pvc-c1").ID
          ServerGroup.Coordinators.AsRole "Not supported"
        ∈ (createRotateServerStoragePlan (sampleSpec .Cluster) sampleStatusCoordinators
          sampleGetPVCCoordinator sampleRotate).events :=
  createRotateServerStoragePlan_other_groups_not_replaced (sampleSpec .Cluster)
    sampleStatusCoordinators sampleGetPVCCoordinator sampleRotate []
    [(ServerGroup.Coordinators, sampleMember "c2" "pvc-c2")]
    .Coordinators (sampleMember "c1" "pvc-c1") sampleClaim
    (by decide) (by decide) (by decide) (by decide) (by decide) (by decide) rfl (by decide)
    (by decide)

/-! ## `ServerGroupSpec.Validate` -/

/-- C7: Validate returns nil exactly when the group is used, the count (unset
read as 0) is at least the minimum count of the spec and it is not the case
that the count exceeds 1 for group Single in mode Single, or the group is
unused and the count is 0; for all groups, modes, environments and counts. -/
theorem ServerGroupSpec.Validate_eq_ok_iff (s : ServerGroupSpec) (group : ServerGroup)
    (used : Bool) (mode : DeploymentMode) (env : Environment) :
    s.Validate group used mode env = .ok () ↔
      (used = true ∧ specMinCount group mode env ≤ s.Count.getD 0
          ∧ ¬ (s.Count.getD 0 > 1 ∧ group = ServerGroup.Single ∧ mode = DeploymentMode.Single))
        ∨ (used = false ∧ s.Count.getD 0 = 0) := by
  have hc : s.GetCount = s.Count.getD 0 := by
    unfold ServerGroupSpec.GetCount
    cases s.Count <;> rfl
  cases used <;> cases env <;> cases group <;> cases mode <;>
    simp [ServerGroupSpec.Validate, specMinCount, hc] <;>
    split_ifs <;> simp_all

/-! ## `ServerGroupSpec.ResetImmutableFields` -/

theorem count_path_ne_storageClassName_path (fieldPrefix : String) :
    fieldPrefix ++ ".count" ≠ fieldPrefix ++ ".storageClassName" := by
  intro h
  have h' := congrArg String.data h
  simp only [String.data_append, List.append_cancel_left_eq] at h'
  exact absurd h' (by decide)

theorem ServerGroupSpec.GetCount_ne_imp (s t : ServerGroupSpec) (h : s.GetCount ≠ t.GetCount) :
    s.Count ≠ t.Count := by
  intro hc
  exact h (by simp [ServerGroupSpec.GetCount, hc])

theorem ServerGroupSpec.GetStorageClassName_ne_imp (s t : ServerGroupSpec)
    (h : s.GetStorageClassName ≠ t.GetStorageClassName) :
    s.StorageClassName ≠ t.StorageClassName := by
  intro hc
  exact h (by simp [ServerGroupSpec.GetStorageClassName, hc])

theorem util.IntOrNil_eq (v : Option ℤ) : util.IntOrNil v = v := by
  cases v <;> rfl

theorem util.StringOrNil_eq (v : Option String) : util.StringOrNil v = v := by
  cases v <;> rfl

theorem ServerGroupSpec.GetStorageClassName_setCount (t : ServerGroupSpec) (c : Option ℤ) :
    ({ t with Count := c }).GetStorageClassName = t.GetStorageClassName := rfl

/-- C8: ResetImmutableFields leaves Args and Resources of the target as they
are, leaves Count as it is unless the group is Agents, and returns a list
that holds prefix.count exactly when the target's Count was changed and
prefix.storageClassName exactly when the target's StorageClassName was
changed, with no other entry and no duplicate. -/
theorem ServerGroupSpec.ResetImmutableFields_exact (s : ServerGroupSpec) (group : ServerGroup)
    (fieldPrefix : String) (target : ServerGroupSpec) :
    (s.ResetImmutableFields group fieldPrefix target).1.Args = target.Args
      ∧ (s.ResetImmutableFields group fieldPrefix target).1.Resources = target.Resources
      ∧ (group ≠ ServerGroup.Agents →
          (s.ResetImmutableFields group fieldPrefix target).1.Count = target.Count)
      ∧ (fieldPrefix ++ ".count" ∈ (s.ResetImmutableFields group fieldPrefix target).2 ↔
          (s.ResetImmutableFields group fieldPrefix target).1.Count ≠ target.Count)
      ∧ (fieldPrefix ++ ".storageClassName"
            ∈ (s.ResetImmutableFields group fieldPrefix target).2 ↔
          (s.ResetImmutableFields group fieldPrefix target).1.StorageClassName
            ≠ target.StorageClassName)
      ∧ (∀ f ∈ (s.ResetImmutableFields group fieldPrefix target).2,
          f = fieldPrefix ++ ".count" ∨ f = fieldPrefix ++ ".storageClassName")
      ∧ (s.ResetImmutableFields group fieldPrefix target).2.Nodup := by
  have hne := count_path_ne_storageClassName_path fieldPrefix
  by_cases hg : group = ServerGroup.Agents <;>
    by_cases hc : s.GetCount = target.GetCount <;>
    by_cases hs : s.GetStorageClassName = target.GetStorageClassName <;>
    simp [ServerGroupSpec.ResetImmutableFields, hg, hc, hs, hne, hne.symm,
      util.IntOrNil_eq, util.StringOrNil_eq, ServerGroupSpec.GetStorageClassName_setCount] <;>
    first
    | exact ServerGroupSpec.GetCount_ne_imp _ _ hc
    | exact ServerGroupSpec.GetStorageClassName_ne_imp _ _ hs
    | exact ⟨ServerGroupSpec.GetCount_ne_imp _ _ hc,
        ServerGroupSpec.GetStorageClassName_ne_imp _ _ hs⟩

theorem ServerGroupSpec.GetCount_eq_getD (s : ServerGroupSpec) :
    s.GetCount = s.Count.getD 0 := by
  unfold ServerGroupSpec.GetCount
  cases s.Count <;> rfl

theorem ServerGroupSpec.GetStorageClassName_eq_getD (s : ServerGroupSpec) :
    s.GetStorageClassName = s.StorageClassName.getD "" := by
  unfold ServerGroupSpec.GetStorageClassName
  cases s.StorageClassName <;> rfl

/-- C9: a second ResetImmutableFields with the same original on the healed
target returns the empty list and leaves the target as it is; the healed
target's storage class name, and for Agents its count, read equal to the
original's. -/
theorem ServerGroupSpec.ResetImmutableFields_idempotent (s : ServerGroupSpec)
    (group : ServerGroup) (fieldPrefix : String) (target : ServerGroupSpec) :
    s.ResetImmutableFields group fieldPrefix (s.ResetImmutableFields group fieldPrefix target).1
        = ((s.ResetImmutableFields group fieldPrefix target).1, [])
      ∧ (s.ResetImmutableFields group fieldPrefix target).1.GetStorageClassName
        = s.GetStorageClassName
      ∧ (group = ServerGroup.Agents →
          (s.ResetImmutableFields group fieldPrefix target).1.GetCount = s.GetCount) := by
  by_cases hg : group = ServerGroup.Agents <;>
    by_cases hc : s.Count.getD 0 = target.Count.getD 0 <;>
    by_cases hs : s.StorageClassName.getD "" = target.StorageClassName.getD "" <;>
    simp [ServerGroupSpec.ResetImmutableFields, ServerGroupSpec.GetCount_eq_getD,
      ServerGroupSpec.GetStorageClassName_eq_getD, hg, hc, hs, util.IntOrNil_eq,
      util.StringOrNil_eq]

/-! ## `ServerGroupSpec.SetDefaults` -/

theorem ResourceList.lookup_set (r : ResourceList) (k : ResourceName) (v : Quantity) :
    List.lookup k (ResourceList.set r k v) = some v := by
  induction r with
  | nil => simp [ResourceList.set, List.lookup]
  | cons kv rest ih =>
    obtain ⟨k', v'⟩ := kv
    by_cases h : k' = k
    · simp [ResourceList.set, h, List.lookup]
    · have h' : (k == k') = false := by simpa using Ne.symm h
      simp [ResourceList.set, h, List.lookup, h', ih]

theorem ResourceList.get_set (r : ResourceList) (k : ResourceName) (v : Quantity) :
    ResourceList.get (some (ResourceList.set r k v)) k = some v := by
  simp [ResourceList.get, ResourceList.lookup_set]

theorem ServerGroupSpec.setDefaultStorageRequest_idempotent (s : ServerGroupSpec)
    (group : ServerGroup) :
    (s.setDefaultStorageRequest group).setDefaultStorageRequest group
      = s.setDefaultStorageRequest group := by
  cases hr : ResourceList.get s.Resources.Requests ResourceStorage with
  | some q =>
    have h1 : s.setDefaultStorageRequest group = s := by
      simp [ServerGroupSpec.setDefaultStorageRequest, hr]
    rw [h1, h1]
  | none =>
    cases group <;>
      simp [ServerGroupSpec.setDefaultStorageRequest, hr, ResourceList.get_set]

theorem ServerGroupSpec.setDefaultCount_idempotent (s : ServerGroupSpec) (group : ServerGroup)
    (used : Bool) (mode : DeploymentMode) :
    (s.setDefaultCount group used mode).setDefaultCount group used mode
      = s.setDefaultCount group used mode := by
  by_cases h : s.Count.getD 0 = 0 ∧ used = true
  · by_cases hm : mode = DeploymentMode.Single <;> cases group <;>
      simp [ServerGroupSpec.setDefaultCount, ServerGroupSpec.GetCount_eq_getD, h, hm, util.Int]
  · have h1 : s.setDefaultCount group used mode = s := by
      simp only [ServerGroupSpec.setDefaultCount, ServerGroupSpec.GetCount_eq_getD, h, if_false]
    rw [h1, h1]

theorem ServerGroupSpec.setDefaultCount_setDefaultStorageRequest (s : ServerGroupSpec)
    (group : ServerGroup) (used : Bool) (mode : DeploymentMode) :
    (s.setDefaultStorageRequest group).setDefaultCount group used mode
      = (s.setDefaultCount group used mode).setDefaultStorageRequest group := by
  cases hr : ResourceList.get s.Resources.Requests ResourceStorage <;>
    by_cases h : s.Count.getD 0 = 0 ∧ used = true <;>
    by_cases hm : mode = DeploymentMode.Single <;> cases group <;>
    simp [ServerGroupSpec.setDefaultCount, ServerGroupSpec.setDefaultStorageRequest,
      ServerGroupSpec.GetCount_eq_getD, h, hm, hr]

/-- C10: SetDefaults is idempotent: applying it twice with the same group,
used flag and mode gives the same spec (count and storage resource request
included) as applying it once. -/
theorem ServerGroupSpec.SetDefaults_idempotent (s : ServerGroupSpec) (group : ServerGroup)
    (used : Bool) (mode : DeploymentMode) :
    (s.SetDefaults group used mode).SetDefaults group used mode
      = s.SetDefaults group used mode := by
  simp only [ServerGroupSpec.SetDefaults]
  rw [ServerGroupSpec.setDefaultCount_setDefaultStorageRequest,
    ServerGroupSpec.setDefaultCount_idempotent,
    ServerGroupSpec.setDefaultStorageRequest_idempotent]

/-! ## `ServerGroupSpec.SetDefaultsFrom` -/

/-- C13: SetDefaultsFrom never overwrites a set field: each of Count, Args and
StorageClassName that is non-nil in the target (a present count of 0, an empty
non-nil Args list and an empty storage class name included) is unchanged, each
that is nil takes the source's value, and Resources is unchanged. -/
theorem ServerGroupSpec.SetDefaultsFrom_fills_only_unset (s source : ServerGroupSpec) :
    (s.Count ≠ none → (s.SetDefaultsFrom source).Count = s.Count)
      ∧ (s.Count = none → (s.SetDefaultsFrom source).Count = source.Count)
      ∧ (s.Args ≠ none → (s.SetDefaultsFrom source).Args = s.Args)
      ∧ (s.Args = none → (s.SetDefaultsFrom source).Args = source.Args)
      ∧ (s.StorageClassName ≠ none →
          (s.SetDefaultsFrom source).StorageClassName = s.StorageClassName)
      ∧ (s.StorageClassName = none →
          (s.SetDefaultsFrom source).StorageClassName = source.StorageClassName)
      ∧ (s.SetDefaultsFrom source).Resources = s.Resources := by
  obtain ⟨count, args, scn, res⟩ := s
  cases count <;> cases args <;> cases scn <;>
    simp [ServerGroupSpec.SetDefaultsFrom, util.IntOrNil_eq, util.StringOrNil_eq]

/-- A target with a present count of 0, an empty Args list and an empty storage
class name keeps all three against a source that sets them otherwise. -/
theorem ServerGroupSpec.SetDefaultsFrom_fills_only_unset_witness :
    (({ sampleGroupSpec (some "") with Count := some 0, Args := some [] } :
        ServerGroupSpec).SetDefaultsFrom
      { sampleGroupSpec (some "fast") with Count := some 3, Args := some ["--x"] }).Count
        = some 0
      ∧ (({ sampleGroupSpec (some "") with Count := some 0, Args := some [] } :
        ServerGroupSpec).SetDefaultsFrom
      { sampleGroupSpec (some "fast") with Count := some 3, Args := some ["--x"] }).Args
        = some []
      ∧ (({ sampleGroupSpec (some "") with Count := some 0, Args := some [] } :
        ServerGroupSpec).SetDefaultsFrom
      { sampleGroupSpec (some "fast") with Count := some 3, Args := some ["--x"] }).StorageClassName
        = some "" :=
  ⟨(ServerGroupSpec.SetDefaultsFrom_fills_only_unset
      { sampleGroupSpec (some "") with Count := some 0, Args := some [] }
      { sampleGroupSpec (some "fast") with Count := some 3, Args := some ["--x"] }).1
      (by decide),
    (ServerGroupSpec.SetDefaultsFrom_fills_only_unset
      { sampleGroupSpec (some "") with Count := some 0, Args := some [] }
      { sampleGroupSpec (some "fast") with Count := some 3, Args := some ["--x"] }).2.2.1
      (by decide),
    (ServerGroupSpec.SetDefaultsFrom_fills_only_unset
      { sampleGroupSpec (some "") with Count := some 0, Args := some [] }
      { sampleGroupSpec (some "fast") with Count := some 3, Args := some ["--x"] }).2.2.2.2.1
      (by decide)⟩

/-! ## `ServerGroupSpec.Validate`: Agents across environments -/

/-- The claim C14 makes fails for a used Agents group in a Cluster deployment
with count 0: the count is below 3, Validate fails under Production, and it
fails under Development too, where the minimum count is 1. -/
theorem ServerGroupSpec.Validate_agents_count_zero_counterexample :
    ({ sampleGroupSpec none with Count := some 0 } : ServerGroupSpec).GetCount < 3
      ∧ ({ sampleGroupSpec none with Count := some 0 } : ServerGroupSpec).Validate
          .Agents true .Cluster .Production = .error (.countBelowMin 3)
      ∧ ({ sampleGroupSpec none with Count := some 0 } : ServerGroupSpec).Validate
          .Agents true .Cluster .Development = .error (.countBelowMin 1)
      ∧ ({ sampleGroupSpec none with Count := some 0 } : ServerGroupSpec).Validate
          .Agents true .Cluster .Development ≠ .ok () := by
  refine ⟨by decide, rfl, rfl, ?_⟩
  intro h
  cases h

/-- C14 (amended): a used Agents group spec in a Cluster deployment whose count
is below 3 fails Validate under Production; under Development the same spec
passes exactly when its count is at least 1. -/
theorem ServerGroupSpec.Validate_agents_below_three (s : ServerGroupSpec)
    (hcount : s.GetCount < 3) :
    s.Validate .Agents true .Cluster .Production = .error (.countBelowMin 3)
      ∧ (s.Validate .Agents true .Cluster .Development = .ok () ↔ 1 ≤ s.GetCount) := by
  constructor
  · simp [ServerGroupSpec.Validate, hcount]
  · by_cases h : s.GetCount < 1
    · simp [ServerGroupSpec.Validate, h]
    · simp [ServerGroupSpec.Validate, h]
      omega

/-- An Agents spec with count 2 fails under Production and passes under
Development. -/
theorem ServerGroupSpec.Validate_agents_below_three_witness :
    ({ sampleGroupSpec none with Count := some 2 } : ServerGroupSpec).Validate
        .Agents true .Cluster .Production = .error (.countBelowMin 3)
      ∧ (({ sampleGroupSpec none with Count := some 2 } : ServerGroupSpec).Validate
          .Agents true .Cluster .Development = .ok ()
        ↔ 1 ≤ ({ sampleGroupSpec none with Count := some 2 } : ServerGroupSpec).GetCount) :=
  ServerGroupSpec.Validate_agents_below_three
    { sampleGroupSpec none with Count := some 2 } (by decide)

/-! ## Storage rotation plan: members the scan skips -/

theorem scanMember_of_skipped (getPVC : GetPVC) (rot : RotateMemberPlanner)
    (spec : DeploymentSpec) (g : ServerGroup) (st : BuilderState) (m : MemberStatus)
    (h : m.Phase ≠ MemberPhase.Created ∨ m.PersistentVolumeClaimName = "") :
    scanMember getPVC rot spec g st m = st := by
  unfold scanMember
  rcases h with h | h
  · simp [h]
  · simp [h]

theorem MemberStatus.skipped_iff (m : MemberStatus) :
    m.skipped = true ↔ m.Phase ≠ MemberPhase.Created ∨ m.PersistentVolumeClaimName = "" := by
  simp [MemberStatus.skipped]

theorem scanAll_filter_skipped (getPVC : GetPVC) (rot : RotateMemberPlanner)
    (spec : DeploymentSpec) (ms : List (ServerGroup × MemberStatus)) (st : BuilderState) :
    scanAll getPVC rot spec st (ms.filter (fun gm => !gm.2.skipped))
      = scanAll getPVC rot spec st ms := by
  induction ms generalizing st with
  | nil => rfl
  | cons x xs ih =>
    by_cases hx : x.2.skipped = true
    · have hskip := scanMember_of_skipped getPVC rot spec x.1 st x.2
        ((MemberStatus.skipped_iff x.2).mp hx)
      rw [List.filter_cons_of_neg (by simp [hx]), ih]
      simp only [scanAll, List.foldl_cons]
      rw [hskip]
    · rw [List.filter_cons_of_pos (by simp [hx])]
      simp only [scanAll, List.foldl_cons] at ih ⊢
      exact ih _

theorem DeploymentStatus.scanOrder_withoutSkipped (status : DeploymentStatus) :
    status.withoutSkipped.Members.scanOrder
      = status.Members.scanOrder.filter (fun gm => !gm.2.skipped) := by
  simp [DeploymentStatus.withoutSkipped, DeploymentStatusMembers.scanOrder, List.filter_append,
    List.filter_map, Function.comp_def]

/-- C15: a member whose phase is not Created, or whose claim name is empty,
leaves the builder's state as it is (no actions, no events, no getPVC call),
and the builder's result for any status is its result for the same status
with all such members removed. -/
theorem createRotateServerStoragePlan_skips_ineligible
    (spec : DeploymentSpec) (status : DeploymentStatus) (getPVC : GetPVC)
    (rot : RotateMemberPlanner) :
    (∀ (g : ServerGroup) (st : BuilderState) (m : MemberStatus),
        m.Phase ≠ MemberPhase.Created ∨ m.PersistentVolumeClaimName = "" →
          scanMember getPVC rot spec g st m = st)
      ∧ createRotateServerStoragePlan spec status getPVC rot
        = createRotateServerStoragePlan spec status.withoutSkipped getPVC rot := by
  refine ⟨fun g st m h => scanMember_of_skipped getPVC rot spec g st m h, ?_⟩
  rw [createRotateServerStoragePlan_eq_scanned, createRotateServerStoragePlan_eq_scanned]
  by_cases hmode : spec.GetMode = DeploymentMode.Single
  · simp [scannedMembers, hmode]
  · simp only [scannedMembers, hmode, if_false]
    rw [DeploymentStatus.scanOrder_withoutSkipped, scanAll_filter_skipped]

/-- In `sampleStatusSkipped` the agent `a1` has no claim: it leaves the state
as it is, and the result is the one for the status holding dbserver `d1`
alone. -/
theorem createRotateServerStoragePlan_skips_ineligible_witness :
    scanMember sampleGetPVC sampleRotate (sampleSpec .Cluster) .Agents BuilderState.init
        (sampleMember "a1" "") = BuilderState.init
      ∧ createRotateServerStoragePlan (sampleSpec .Cluster) sampleStatusSkipped sampleGetPVC
          sampleRotate
        = createRotateServerStoragePlan (sampleSpec .Cluster) sampleStatusSkipped.withoutSkipped
          sampleGetPVC sampleRotate :=
  ⟨(createRotateServerStoragePlan_skips_ineligible (sampleSpec .Cluster) sampleStatusSkipped
      sampleGetPVC sampleRotate).1 .Agents BuilderState.init (sampleMember "a1" "")
      (Or.inr (by decide)),
    (createRotateServerStoragePlan_skips_ineligible (sampleSpec .Cluster) sampleStatusSkipped
      sampleGetPVC sampleRotate).2⟩

/-! ## Storage rotation plan: a claim without a storage class -/

/-- The claim C16 makes fails: with the desired class `fast`, dbserver `d1`,
whose claim has no storage class (nil), gets the five-step replacement plan;
agent `a1`, whose claim has the empty storage class, gets the four-step one;
and for coordinator `c1`, whose claim has the empty storage class, a
cannot-change-storage-class event is emitted. -/
theorem createRotateServerStoragePlan_unset_class_counterexample :
    sampleGetPVCUnset "pvc-d1" = .ok sampleClaimUnset
      ∧ sampleClaimUnset.Spec.StorageClassName = none
      ∧ (createRotateServerStoragePlan (sampleSpec .Cluster) sampleStatusDBServer
          sampleGetPVCUnset sampleRotate).plan
        = [NewAction .AddMember .DBServers "",
            NewAction .WaitForMemberUp .DBServers MemberIDPreviousAction,
            NewAction .CleanOutMember .DBServers "d1",
            NewAction .ShutdownMember .DBServers "d1",
            NewAction .RemoveMember .DBServers "d1"]
      ∧ sampleGetPVCUnset "pvc-a1" = .ok sampleClaimEmpty
      ∧ sampleClaimEmpty.Spec.StorageClassName = some ""
      ∧ (createRotateServerStoragePlan (sampleSpec .Cluster) sampleStatus
          sampleGetPVCUnset sampleRotate).plan
        = [NewAction .ShutdownMember .Agents "a1",
            NewAction .RemoveMember .Agents "a1",
            NewAction .AddMember .Agents "a1",
            NewAction .WaitForMemberUp .Agents "a1"]
      ∧ (createRotateServerStoragePlan (sampleSpec .Cluster) sampleStatusCoordinator
          sampleGetPVCUnset sampleRotate).events
        = [NewCannotChangeStorageClassEvent "c1" ServerGroup.Coordinators.AsRole
            "Not supported"] := by
  refine ⟨rfl, rfl, by decide, rfl, rfl, by decide, by decide⟩

/-- C16 (amended): the class of a claim with an empty or unspecified (nil)
storage class is read as the empty string. For a member in phase Created with
such a claim, reached with an empty plan: when the group's desired class is
empty, no replacement is planned and no event emitted (the rotate planner runs
if a resize is pending); when it is non-empty, the member needs replacement,
so Agents and DBServers get their replacement sequence and every other group
a cannot-change-storage-class event. -/
theorem createRotateServerStoragePlan_unset_claim_class
    (getPVC : GetPVC) (rot : RotateMemberPlanner) (spec : DeploymentSpec) (g : ServerGroup)
    (m : MemberStatus) (pvc : PersistentVolumeClaim)
    (hphase : m.Phase = MemberPhase.Created)
    (hname : m.PersistentVolumeClaimName ≠ "")
    (hpvc : getPVC m.PersistentVolumeClaimName = .ok pvc)
    (hclass : pvc.Spec.StorageClassName = none ∨ pvc.Spec.StorageClassName = some "") :
    util.StringOrDefault pvc.Spec.StorageClassName = ""
      ∧ ((spec.GetServerGroupSpec g).GetStorageClassName = "" →
          (scanMember getPVC rot spec g BuilderState.init m).events = []
            ∧ memberActions getPVC rot spec (g, m)
              = if IsPersistentVolumeClaimFileSystemResizePending pvc = true then
                  rot m g "Filesystem resize pending"
                else [])
      ∧ ((spec.GetServerGroupSpec g).GetStorageClassName ≠ "" →
          memberActions getPVC rot spec (g, m)
              = (match g with
                | .Agents =>
                  [NewAction .ShutdownMember .Agents m.ID, NewAction .RemoveMember .Agents m.ID,
                    NewAction .AddMember .Agents m.ID, NewAction .WaitForMemberUp .Agents m.ID]
                | .DBServers =>
                  [NewAction .AddMember .DBServers "",
                    NewAction .WaitForMemberUp .DBServers MemberIDPreviousAction,
                    NewAction .CleanOutMember .DBServers m.ID,
                    NewAction .ShutdownMember .DBServers m.ID,
                    NewAction .RemoveMember .DBServers m.ID]
                | _ => [])
            ∧ (scanMember getPVC rot spec g BuilderState.init m).events
              = if g = ServerGroup.Agents ∨ g = ServerGroup.DBServers then []
                else [NewCannotChangeStorageClassEvent m.ID g.AsRole "Not supported"]) := by
  have hsd : util.StringOrDefault pvc.Spec.StorageClassName = "" := by
    rcases hclass with h | h <;> rw [h] <;> rfl
  refine ⟨hsd, ?_, ?_⟩
  · intro hset
    cases hr : IsPersistentVolumeClaimFileSystemResizePending pvc <;>
      simp [memberActions, scanMember, BuilderState.init, hphase, hname, hpvc, hsd, hset, hr]
  · intro hset
    have hdiff : util.StringOrDefault pvc.Spec.StorageClassName
        ≠ (spec.GetServerGroupSpec g).GetStorageClassName := by
      rw [hsd]
      exact Ne.symm hset
    cases g <;>
      simp [memberActions, scanMember, BuilderState.init, hphase, hname, hpvc, hset, hdiff]

/-- For dbserver `d1` with a claim without storage class and the desired class
`fast`, the replacement sequence is produced. -/
theorem createRotateServerStoragePlan_unset_claim_class_witness :
    memberActions sampleGetPVCUnset sampleRotate (sampleSpec .Cluster)
        (ServerGroup.DBServers, sampleMember "d1" "pvc-d1")
      = [NewAction .AddMember .DBServers "",
          NewAction .WaitForMemberUp .DBServers MemberIDPreviousAction,
          NewAction .CleanOutMember .DBServers (sampleMember "d1" "pvc-d1").ID,
          NewAction .ShutdownMember .DBServers (sampleMember "d1" "pvc-d1").ID,
          NewAction .RemoveMember .DBServers (sampleMember "d1" "pvc-d1").ID] :=
  ((createRotateServerStoragePlan_unset_claim_class sampleGetPVCUnset sampleRotate
    (sampleSpec .Cluster) .DBServers (sampleMember "d1" "pvc-d1") sampleClaimUnset
    (by decide) (by decide) rfl (Or.inl rfl)).2.2 (by decide)).1

/-! ## Storage rotation plan: failure to read a claim -/

/-- The whole effect of a member reached with an empty plan whose claim cannot
be read. -/
theorem scanMember_getPVC_error (getPVC : GetPVC) (rot : RotateMemberPlanner)
    (spec : DeploymentSpec) (g : ServerGroup) (m : MemberStatus) (err : String)
    (st : BuilderState) (hst : st.plan = [])
    (hphase : m.Phase = MemberPhase.Created)
    (hname : m.PersistentVolumeClaimName ≠ "")
    (herr : getPVC m.PersistentVolumeClaimName = .error err) :
    scanMember getPVC rot spec g st m =
      { plan := []
        events := st.events
        pvcCalls := st.pvcCalls ++ [m.PersistentVolumeClaimName]
        log := st.log ++ [LogEntry.FailedToGetPVC g.AsRole m.ID err] } := by
  simp [scanMember, hst, hphase, hname, herr]

theorem memberActions_getPVC_error (getPVC : GetPVC) (rot : RotateMemberPlanner)
    (spec : DeploymentSpec) (g : ServerGroup) (m : MemberStatus) (err : String)
    (herr : getPVC m.PersistentVolumeClaimName = .error err) :
    memberActions getPVC rot spec (g, m) = [] := by
  by_cases hphase : m.Phase = MemberPhase.Created
  · by_cases hname : m.PersistentVolumeClaimName = ""
    · simp [memberActions, scanMember, BuilderState.init, hname]
    · simp [memberActions, scanMember, BuilderState.init, hphase, hname, herr]
  · simp [memberActions, scanMember, BuilderState.init, hphase]

/-- C17: a member for which getPVC returns an error contributes no actions,
and the pass goes on: the returned plan is the plan for the same status with
that member removed, so later members and groups are planned as usual. -/
theorem createRotateServerStoragePlan_getPVC_error_skips_member
    (spec : DeploymentSpec) (status status' : DeploymentStatus) (getPVC : GetPVC)
    (rot : RotateMemberPlanner) (pre post : List (ServerGroup × MemberStatus))
    (g : ServerGroup) (m : MemberStatus) (err : String)
    (hscan : status.Members.scanOrder = pre ++ (g, m) :: post)
    (hscan' : status'.Members.scanOrder = pre ++ post)
    (herr : getPVC m.PersistentVolumeClaimName = .error err) :
    memberActions getPVC rot spec (g, m) = []
      ∧ (createRotateServerStoragePlan spec status getPVC rot).plan
        = (createRotateServerStoragePlan spec status' getPVC rot).plan := by
  have hact := memberActions_getPVC_error getPVC rot spec g m err herr
  refine ⟨hact, ?_⟩
  rw [createRotateServerStoragePlan_eq_scanned, createRotateServerStoragePlan_eq_scanned]
  by_cases hmode : spec.GetMode = DeploymentMode.Single
  · simp [scannedMembers, hmode]
  · simp only [scannedMembers, hmode, if_false]
    rw [hscan, hscan']
    exact scanAll_skip_plan getPVC rot spec pre post (g, m) _ hact

/-- In `sampleStatus` the claim of agent `a1` cannot be read; the plan is the
one for the status that holds dbserver `d1` alone. -/
theorem createRotateServerStoragePlan_getPVC_error_skips_member_witness :
    memberActions sampleGetPVCFailing sampleRotate (sampleSpec .Cluster)
        (ServerGroup.Agents, sampleMember "a1" "pvc-a1") = []
      ∧ (createRotateServerStoragePlan (sampleSpec .Cluster) sampleStatus sampleGetPVCFailing
          sampleRotate).plan
        = (createRotateServerStoragePlan (sampleSpec .Cluster) sampleStatusDBServer
          sampleGetPVCFailing sampleRotate).plan :=
  createRotateServerStoragePlan_getPVC_error_skips_member (sampleSpec .Cluster) sampleStatus
    sampleStatusDBServer sampleGetPVCFailing sampleRotate []
    [(ServerGroup.DBServers, sampleMember "d1" "pvc-d1")] .Agents (sampleMember "a1" "pvc-a1")
    "not found" (by decide) (by decide) rfl

/-- The claim C18 makes fails for agent `a1` of `sampleStatus`: it is the first
member scanned, is in phase Created with a claim name, getPVC returns an error
for it, and yet no event at all is passed to createEvent during the call; the
failure is written to the logger. -/
theorem createRotateServerStoragePlan_getPVC_error_counterexample :
    (sampleSpec .Cluster).GetMode ≠ DeploymentMode.Single
      ∧ sampleStatus.Members.scanOrder
        = [(ServerGroup.Agents, sampleMember "a1" "pvc-a1"),
            (ServerGroup.DBServers, sampleMember "d1" "pvc-d1")]
      ∧ (sampleMember "a1" "pvc-a1").Phase = MemberPhase.Created
      ∧ (sampleMember "a1" "pvc-a1").PersistentVolumeClaimName = "pvc-a1"
      ∧ sampleGetPVCFailing "pvc-a1" = .error "not found"
      ∧ (createRotateServerStoragePlan (sampleSpec .Cluster) sampleStatus sampleGetPVCFailing
          sampleRotate).events = []
      ∧ LogEntry.FailedToGetPVC ServerGroup.Agents.AsRole "a1" "not found"
        ∈ (createRotateServerStoragePlan (sampleSpec .Cluster) sampleStatus sampleGetPVCFailing
          sampleRotate).log := by
  refine ⟨by decide, by decide, by decide, by decide, rfl, by decide, by decide⟩

/-- C18 (amended): when getPVC returns an error for a member reached by the
scan (no earlier member produced actions, phase Created, claim name set), the
builder reports it through its logger, as a warning with the role, the member
ID and the error; it passes nothing to the event sink for that member and
adds no actions. -/
theorem createRotateServerStoragePlan_getPVC_error_logged
    (spec : DeploymentSpec) (status : DeploymentStatus) (getPVC : GetPVC)
    (rot : RotateMemberPlanner) (pre post : List (ServerGroup × MemberStatus))
    (g : ServerGroup) (m : MemberStatus) (err : String)
    (hscan : scannedMembers spec status = pre ++ (g, m) :: post)
    (hpre : ∀ y ∈ pre, memberActions getPVC rot spec y = [])
    (hphase : m.Phase = MemberPhase.Created)
    (hname : m.PersistentVolumeClaimName ≠ "")
    (herr : getPVC m.PersistentVolumeClaimName = .error err) :
    (scanMember getPVC rot spec g (scanAll getPVC rot spec BuilderState.init pre) m).events
        = (scanAll getPVC rot spec BuilderState.init pre).events
      ∧ (scanMember getPVC rot spec g (scanAll getPVC rot spec BuilderState.init pre) m).log
        = (scanAll getPVC rot spec BuilderState.init pre).log
          ++ [LogEntry.FailedToGetPVC g.AsRole m.ID err]
      ∧ (scanMember getPVC rot spec g (scanAll getPVC rot spec BuilderState.init pre) m).plan = []
      ∧ createRotateServerStoragePlan spec status getPVC rot
        = scanAll getPVC rot spec
            (scanMember getPVC rot spec g (scanAll getPVC rot spec BuilderState.init pre) m)
            post := by
  have h1 : (scanAll getPVC rot spec BuilderState.init pre).plan = [] :=
    scanAll_plan_nil getPVC rot spec pre _ rfl hpre
  have h2 := scanMember_getPVC_error getPVC rot spec g m err _ h1 hphase hname herr
  refine ⟨?_, ?_, ?_, ?_⟩
  · rw [h2]
  · rw [h2]
  · rw [h2]
  · rw [createRotateServerStoragePlan_eq_scanned, hscan, scanAll_append]
    simp [scanAll]

/-- For agent `a1` of `sampleStatus` under `sampleGetPVCFailing` the events stay
as they are and the log gains the warning. -/
theorem createRotateServerStoragePlan_getPVC_error_logged_witness :
    (scanMember sampleGetPVCFailing sampleRotate (sampleSpec .Cluster) .Agents
          (scanAll sampleGetPVCFailing sampleRotate (sampleSpec .Cluster) BuilderState.init [])
          (sampleMember "a1" "pvc-a1")).events
        = (scanAll sampleGetPVCFailing sampleRotate (sampleSpec .Cluster) BuilderState.init
            []).events
      ∧ (scanMember sampleGetPVCFailing sampleRotate (sampleSpec .Cluster) .Agents
          (scanAll sampleGetPVCFailing sampleRotate (sampleSpec .Cluster) BuilderState.init [])
          (sampleMember "a1" "pvc-a1")).log
        = (scanAll sampleGetPVCFailing sampleRotate (sampleSpec .Cluster) BuilderState.init
            []).log
          ++ [LogEntry.FailedToGetPVC ServerGroup.Agents.AsRole (sampleMember "a1" "pvc-a1").ID
            "not found"] :=
  ⟨(createRotateServerStoragePlan_getPVC_error_logged (sampleSpec .Cluster) sampleStatus
      sampleGetPVCFailing sampleRotate [] [(ServerGroup.DBServers, sampleMember "d1" "pvc-d1")]
      .Agents (sampleMember "a1" "pvc-a1") "not found"
      (by decide) (by decide) (by decide) (by decide) rfl).1,
    (createRotateServerStoragePlan_getPVC_error_logged (sampleSpec .Cluster) sampleStatus
      sampleGetPVCFailing sampleRotate [] [(ServerGroup.DBServers, sampleMember "d1" "pvc-d1")]
      .Agents (sampleMember "a1" "pvc-a1") "not found"
      (by decide) (by decide) (by decide) (by decide) rfl).2.1⟩

/-! ## `BootstrapSpec.Validate` -/

theorem PasswordSecretName.Validate_ok_iff_none_or_valid (p : PasswordSecretName) :
    PasswordSecretName.Validate p = .ok ()
      ↔ PasswordSecretName.IsNone p = true ∨ ValidateResourceName p = .ok () := by
  unfold PasswordSecretName.Validate
  by_cases h : PasswordSecretName.IsNone p = true
  · simp [h]
  · cases hv : ValidateResourceName p <;> simp [h]

theorem BootstrapSpec.validateEntries_eq_ok_iff (names : PasswordSecretNameList) :
    BootstrapSpec.validateEntries names = .ok ()
      ↔ ∀ e ∈ names, PasswordSecretName.IsNone e.2 = true ∨ ValidateResourceName e.2 = .ok () := by
  induction names with
  | nil => simp [BootstrapSpec.validateEntries]
  | cons e rest ih =>
    obtain ⟨user, secretname⟩ := e
    cases hv : PasswordSecretName.Validate secretname with
    | error err =>
      have hne : ¬ (PasswordSecretName.IsNone secretname = true
          ∨ ValidateResourceName secretname = .ok ()) := by
        rw [← PasswordSecretName.Validate_ok_iff_none_or_valid, hv]
        simp
      simp only [BootstrapSpec.validateEntries, hv, List.mem_cons, forall_eq_or_imp]
      constructor
      · intro h
        cases h
      · intro h
        exact absurd h.1 hne
    | ok u =>
      have hok : PasswordSecretName.IsNone secretname = true
          ∨ ValidateResourceName secretname = .ok () := by
        rw [← PasswordSecretName.Validate_ok_iff_none_or_valid, hv]
      simp only [BootstrapSpec.validateEntries, hv, List.mem_cons, forall_eq_or_imp, ih]
      constructor
      · intro h
        exact ⟨hok, h⟩
      · intro h
        exact h.2

/-- The claim C19 makes fails for the map that gives root the sentinel Auto:
every value is a documented sentinel, and Validate returns an error, because
Auto is checked as a resource name. -/
theorem BootstrapSpec.Validate_auto_counterexample :
    (∀ e ∈ [(UserNameRoot, PasswordSecretNameAuto)],
        e.2 = PasswordSecretNameNone ∨ e.2 = PasswordSecretNameAuto
          ∨ ValidateResourceName e.2 = .ok ())
      ∧ BootstrapSpec.Validate
          { PasswordSecretNames := some [(UserNameRoot, PasswordSecretNameAuto)] }
        = .error "Name 'Auto' is not a valid resource name"
      ∧ BootstrapSpec.Validate
          { PasswordSecretNames := some [(UserNameRoot, PasswordSecretNameAuto)] }
        ≠ .ok () := by
  refine ⟨?_, rfl, ?_⟩
  · intro e he
    simp only [List.mem_singleton] at he
    subst he
    exact Or.inr (Or.inl rfl)
  · intro h
    cases h

/-- C19 (amended): for every map in which each value is the sentinel None or a
valid resource name, Validate returns nil, and it returns an error only when
some value is neither (nor empty); the sentinel Auto is not exempt: it is
checked as a resource name and rejected. -/
theorem BootstrapSpec.Validate_accepts_none_and_valid (b : BootstrapSpec) :
    ((∀ names, b.PasswordSecretNames = some names →
        ∀ e ∈ names, e.2 = PasswordSecretNameNone ∨ ValidateResourceName e.2 = .ok ()) →
        b.Validate = .ok ())
      ∧ (b.Validate ≠ .ok () →
          ∃ names, b.PasswordSecretNames = some names ∧
            ∃ e ∈ names, e.2 ≠ PasswordSecretNameNone ∧ e.2 ≠ ""
              ∧ ValidateResourceName e.2 ≠ .ok ())
      ∧ PasswordSecretName.Validate PasswordSecretNameAuto ≠ .ok () := by
  refine ⟨?_, ?_, ?_⟩
  · intro h
    cases hb : b.PasswordSecretNames with
    | none => simp [BootstrapSpec.Validate, hb]
    | some names =>
      simp only [BootstrapSpec.Validate, hb]
      rw [BootstrapSpec.validateEntries_eq_ok_iff]
      intro e he
      rcases h names hb e he with h1 | h1
      · left
        simp [PasswordSecretName.IsNone, h1]
      · exact Or.inr h1
  · intro h
    cases hb : b.PasswordSecretNames with
    | none => exact absurd (by simp [BootstrapSpec.Validate, hb]) h
    | some names =>
      refine ⟨names, rfl, ?_⟩
      simp only [BootstrapSpec.Validate, hb] at h
      rw [Ne, BootstrapSpec.validateEntries_eq_ok_iff] at h
      push_neg at h
      obtain ⟨e, he, h1, h2⟩ := h
      refine ⟨e, he, ?_, ?_, h2⟩
      · intro hn
        exact h1 (by simp [PasswordSecretName.IsNone, hn])
      · intro hn
        exact h1 (by simp [PasswordSecretName.IsNone, hn])
  · intro h
    have : PasswordSecretName.Validate PasswordSecretNameAuto
        = .error "Name 'Auto' is not a valid resource name" := rfl
    rw [this] at h
    cases h

/-- The map that gives root a concrete name and disables bob passes Validate. -/
theorem BootstrapSpec.Validate_accepts_none_and_valid_witness :
    BootstrapSpec.Validate
        { PasswordSecretNames := some [("root", "db-root-password"), ("bob", "None")] }
      = .ok () :=
  (BootstrapSpec.Validate_accepts_none_and_valid
    { PasswordSecretNames := some [("root", "db-root-password"), ("bob", "None")] }).1
    (by
      intro names hn e he
      cases hn
      simp only [List.mem_cons, List.mem_singleton, List.not_mem_nil, or_false] at he
      rcases he with rfl | rfl
      · exact Or.inr rfl
      · exact Or.inl rfl)

/-! ## `AuthenticationSpec.ResetImmutableFields` -/

theorem AuthenticationSpec.IsAuthenticated_eq_false_iff (s : AuthenticationSpec) :
    s.IsAuthenticated = false ↔ s.JWTSecretName = some "None" := by
  obtain ⟨name⟩ := s
  cases name with
  | none =>
    simp [AuthenticationSpec.IsAuthenticated, AuthenticationSpec.GetJWTSecretName,
      util.StringOrDefault, JWTSecretNameDisabled]
  | some v =>
    simp [AuthenticationSpec.IsAuthenticated, AuthenticationSpec.GetJWTSecretName,
      util.StringOrDefault, JWTSecretNameDisabled]

/-- The model of `ResetImmutableFields` passes every row of the table of
`TestAuthenticationSpecResetImmutableFields`. -/
theorem AuthenticationSpec.ResetImmutableFields_passes_tests :
    ∀ t ∈ authenticationResetTests,
      t.Original.ResetImmutableFields "test" t.Target = (t.Expected, t.Result) := by
  decide

/-- The model of `IsAuthenticated` passes `TestAuthenticationSpecIsAuthenticated`. -/
theorem AuthenticationSpec.IsAuthenticated_passes_tests :
    AuthenticationSpec.IsAuthenticated ⟨some "None"⟩ = false
      ∧ AuthenticationSpec.IsAuthenticated ⟨some "foo"⟩ = true
      ∧ AuthenticationSpec.IsAuthenticated ⟨some ""⟩ = true := by
  decide

/-- C20: if exactly one of original and target has the JWT secret name None,
ResetImmutableFields overwrites the target's JWTSecretName with the original's
and returns exactly the path prefix.jwtSecretName; otherwise (both None, or
neither, even with different names) the target is left as it is and the
result is empty. -/
theorem AuthenticationSpec.ResetImmutableFields_on_off (s target : AuthenticationSpec)
    (fieldPrefix : String) :
    (((s.JWTSecretName = some "None" ∧ target.JWTSecretName ≠ some "None")
        ∨ (s.JWTSecretName ≠ some "None" ∧ target.JWTSecretName = some "None")) →
        s.ResetImmutableFields fieldPrefix target
          = ({ JWTSecretName := s.JWTSecretName }, [fieldPrefix ++ ".jwtSecretName"]))
      ∧ (¬ ((s.JWTSecretName = some "None" ∧ target.JWTSecretName ≠ some "None")
          ∨ (s.JWTSecretName ≠ some "None" ∧ target.JWTSecretName = some "None")) →
        s.ResetImmutableFields fieldPrefix target = (target, [])) := by
  have hs := AuthenticationSpec.IsAuthenticated_eq_false_iff s
  have ht := AuthenticationSpec.IsAuthenticated_eq_false_iff target
  cases h1 : s.IsAuthenticated <;> cases h2 : target.IsAuthenticated <;>
    simp [h1, h2] at hs ht <;>
    simp [AuthenticationSpec.ResetImmutableFields, h1, h2, hs, ht, util.StringOrNil_eq]

/-- Switching authentication off (`foo` to None) is healed; renaming `foo` to
`foo2` is left alone. -/
theorem AuthenticationSpec.ResetImmutableFields_on_off_witness :
    AuthenticationSpec.ResetImmutableFields ⟨some "foo"⟩ "test" ⟨some "None"⟩
        = ({ JWTSecretName := some "foo" }, ["test" ++ ".jwtSecretName"])
      ∧ AuthenticationSpec.ResetImmutableFields ⟨some "foo"⟩ "test" ⟨some "foo2"⟩
        = (⟨some "foo2"⟩, []) :=
  ⟨(AuthenticationSpec.ResetImmutableFields_on_off ⟨some "foo"⟩ ⟨some "None"⟩ "test").1
      (Or.inr ⟨by decide, rfl⟩),
    (AuthenticationSpec.ResetImmutableFields_on_off ⟨some "foo"⟩ ⟨some "foo2"⟩ "test").2
      (by decide)⟩

/-! ## `BootstrapSpec.SetDefaults` -/

theorem getSecretNameForUserPassword_ne_auto (deploymentname username : String) :
    getSecretNameForUserPassword deploymentname username ≠ PasswordSecretNameAuto := by
  intro h
  have hlen := congrArg String.length h
  simp only [getSecretNameForUserPassword, String.length_append, PasswordSecretNameAuto] at hlen
  have h1 : "-password".length = 9 := by decide
  have h2 : "Auto".length = 4 := by decide
  have h3 : "-".length = 1 := by decide
  omega

theorem getSecretNameForUserPassword_isAuto (deploymentname username : String) :
    PasswordSecretName.IsAuto (getSecretNameForUserPassword deploymentname username) = false := by
  simp [PasswordSecretName.IsAuto, getSecretNameForUserPassword_ne_auto]

theorem getSecretNameForUserPassword_root (deploymentname : String) :
    getSecretNameForUserPassword deploymentname UserNameRoot
      = deploymentname ++ "-root-password" := by
  simp only [getSecretNameForUserPassword, UserNameRoot, String.append_assoc]
  rfl

theorem PasswordSecretNameList.lookup_after_set (m : PasswordSecretNameList) (k k' : String)
    (x : PasswordSecretName) :
    List.lookup k (PasswordSecretNameList.set m k' x)
      = if k = k' then some x else List.lookup k m := by
  induction m with
  | nil =>
    by_cases h : k = k'
    · simp [PasswordSecretNameList.set, List.lookup, h]
    · have h' : (k == k') = false := by simpa using h
      simp [PasswordSecretNameList.set, List.lookup, h, h']
  | cons e rest ih =>
    obtain ⟨k0, v0⟩ := e
    by_cases h0 : k0 = k'
    · subst h0
      by_cases h : k = k0
      · simp [PasswordSecretNameList.set, List.lookup, h]
      · have h' : (k == k0) = false := by simpa using h
        simp [PasswordSecretNameList.set, List.lookup, h, h']
    · by_cases h : k = k0
      · subst h
        simp [PasswordSecretNameList.set, List.lookup, h0]
      · have h' : (k == k0) = false := by simpa using h
        simp [PasswordSecretNameList.set, List.lookup, h0, h', ih]

theorem PasswordSecretNameList.keys_set_of_mem (m : PasswordSecretNameList) (k : String)
    (x : PasswordSecretName) (h : k ∈ m.map Prod.fst) :
    (PasswordSecretNameList.set m k x).map Prod.fst = m.map Prod.fst := by
  induction m with
  | nil => simp at h
  | cons e rest ih =>
    obtain ⟨k0, v0⟩ := e
    by_cases h0 : k0 = k
    · simp [PasswordSecretNameList.set, h0]
    · have hrest : k ∈ rest.map Prod.fst := by
        simp only [List.map_cons, List.mem_cons] at h
        rcases h with h | h
        · exact absurd h.symm h0
        · exact h
      simp [PasswordSecretNameList.set, h0, ih hrest]

theorem PasswordSecretNameList.keys_set_of_not_mem (m : PasswordSecretNameList) (k : String)
    (x : PasswordSecretName) (h : k ∉ m.map Prod.fst) :
    (PasswordSecretNameList.set m k x).map Prod.fst = m.map Prod.fst ++ [k] := by
  induction m with
  | nil => simp [PasswordSecretNameList.set]
  | cons e rest ih =>
    obtain ⟨k0, v0⟩ := e
    simp only [List.map_cons, List.mem_cons, not_or] at h
    have h0 : ¬ k0 = k := fun hk => h.1 hk.symm
    simp [PasswordSecretNameList.set, h0, ih h.2]

theorem PasswordSecretNameList.set_of_not_mem_left (pre rest : PasswordSecretNameList)
    (k : String) (v x : PasswordSecretName) (h : k ∉ pre.map Prod.fst) :
    PasswordSecretNameList.set (pre ++ (k, v) :: rest) k x = pre ++ (k, x) :: rest := by
  induction pre with
  | nil => simp [PasswordSecretNameList.set]
  | cons e pre ih =>
    obtain ⟨k0, v0⟩ := e
    simp only [List.map_cons, List.mem_cons, not_or] at h
    have h0 : ¬ k0 = k := fun hk => h.1 hk.symm
    simp [PasswordSecretNameList.set, h0, ih h.2]

theorem PasswordSecretNameList.lookup_eq_none_iff (m : PasswordSecretNameList) (k : String) :
    List.lookup k m = none ↔ k ∉ m.map Prod.fst := by
  induction m with
  | nil => simp [List.lookup]
  | cons e rest ih =>
    obtain ⟨k0, v0⟩ := e
    by_cases h : k = k0
    · subst h
      simp [List.lookup]
    · have h' : (k == k0) = false := by simpa using h
      simp [List.lookup, h', ih, h]

/-- One step of the loop, on a map in which the visited key occurs once: the
visited entry is resolved in place. -/
theorem BootstrapSpec.fillUser_visited (d : String) (pre rest : PasswordSecretNameList)
    (e : String × PasswordSecretName) (h : e.1 ∉ pre.map Prod.fst) :
    BootstrapSpec.fillUser d (pre ++ e :: rest) e
      = pre ++ (if e.1 ≠ UserNameRoot ∧ e.2 = PasswordSecretNameAuto
          then (e.1, getSecretNameForUserPassword d e.1) else e) :: rest := by
  obtain ⟨k, v⟩ := e
  by_cases h1 : k = UserNameRoot
  · simp [BootstrapSpec.fillUser, h1]
  · by_cases h2 : v = PasswordSecretNameAuto
    · simp [BootstrapSpec.fillUser, h1, h2, PasswordSecretName.IsAuto,
        PasswordSecretNameList.set_of_not_mem_left _ _ _ _ _ h]
    · simp [BootstrapSpec.fillUser, h1, h2, PasswordSecretName.IsAuto]

theorem BootstrapSpec.foldl_fillUser (d : String) (es pre : PasswordSecretNameList)
    (h : ((pre ++ es).map Prod.fst).Nodup) :
    es.foldl (BootstrapSpec.fillUser d) (pre ++ es)
      = pre ++ es.map (fun e => if e.1 ≠ UserNameRoot ∧ e.2 = PasswordSecretNameAuto
          then (e.1, getSecretNameForUserPassword d e.1) else e) := by
  induction es generalizing pre with
  | nil => simp
  | cons e es ih =>
    have hnot : e.1 ∉ pre.map Prod.fst := by
      simp only [List.map_append, List.map_cons] at h
      have := (List.nodup_append.mp h).2.2
      intro hmem
      exact this hmem (List.mem_cons_self _ _)
    rw [List.foldl_cons, BootstrapSpec.fillUser_visited d pre es e hnot]
    have hkeys : ((pre ++ [if e.1 ≠ UserNameRoot ∧ e.2 = PasswordSecretNameAuto
          then (e.1, getSecretNameForUserPassword d e.1) else e] ++ es).map Prod.fst).Nodup := by
      have : (if e.1 ≠ UserNameRoot ∧ e.2 = PasswordSecretNameAuto
          then (e.1, getSecretNameForUserPassword d e.1) else e).1 = e.1 := by
        split_ifs <;> rfl
      simpa [this] using h
    have := ih (pre ++ [if e.1 ≠ UserNameRoot ∧ e.2 = PasswordSecretNameAuto
          then (e.1, getSecretNameForUserPassword d e.1) else e]) hkeys
    simpa using this

/-- The loop over a map with distinct keys resolves every Auto entry other than
root's in place and leaves the rest as it is. -/
theorem BootstrapSpec.fillUsers_eq_map (d : String) (names : PasswordSecretNameList)
    (h : (names.map Prod.fst).Nodup) :
    BootstrapSpec.fillUsers names d
      = names.map (fun e => if e.1 ≠ UserNameRoot ∧ e.2 = PasswordSecretNameAuto
          then (e.1, getSecretNameForUserPassword d e.1) else e) := by
  have := BootstrapSpec.foldl_fillUser d names [] (by simpa using h)
  simpa [BootstrapSpec.fillUsers] using this

/-- The loop changes nothing on a map without an Auto entry besides root's. -/
theorem BootstrapSpec.foldl_fillUser_of_resolved (d : String)
    (es acc : PasswordSecretNameList)
    (h : ∀ e ∈ es, e.1 ≠ UserNameRoot → e.2 ≠ PasswordSecretNameAuto) :
    es.foldl (BootstrapSpec.fillUser d) acc = acc := by
  induction es generalizing acc with
  | nil => rfl
  | cons e es ih =>
    have hstep : BootstrapSpec.fillUser d acc e = acc := by
      by_cases h1 : e.1 = UserNameRoot
      · simp [BootstrapSpec.fillUser, h1]
      · have := h e (List.mem_cons_self _ _) h1
        simp [BootstrapSpec.fillUser, h1, PasswordSecretName.IsAuto, this]
    rw [List.foldl_cons, hstep]
    exact ih acc (fun e' he' => h e' (List.mem_cons_of_mem _ he'))

theorem PasswordSecretNameList.lookup_map_value (m : PasswordSecretNameList) (k : String)
    (f : String → PasswordSecretName → PasswordSecretName) :
    List.lookup k (m.map (fun e => (e.1, f e.1 e.2))) = (List.lookup k m).map (f k) := by
  induction m with
  | nil => simp [List.lookup]
  | cons e rest ih =>
    obtain ⟨k0, v0⟩ := e
    by_cases h : k = k0
    · subst h
      simp [List.lookup]
    · have h' : (k == k0) = false := by simpa using h
      simp [List.lookup, h', ih]

theorem BootstrapSpec.resolve_eq (d : String) :
    (fun e : String × PasswordSecretName =>
        if e.1 ≠ UserNameRoot ∧ e.2 = PasswordSecretNameAuto
          then (e.1, getSecretNameForUserPassword d e.1) else e)
      = fun e => (e.1, if e.1 ≠ UserNameRoot ∧ e.2 = PasswordSecretNameAuto
          then getSecretNameForUserPassword d e.1 else e.2) := by
  funext e
  split_ifs <;> rfl

/-- What the finished loop holds for each user, on a map with distinct keys. -/
theorem BootstrapSpec.lookup_fillUsers (d : String) (names : PasswordSecretNameList)
    (h : (names.map Prod.fst).Nodup) (k : String) :
    List.lookup k (BootstrapSpec.fillUsers names d)
      = (List.lookup k names).map (fun v =>
          if k ≠ UserNameRoot ∧ v = PasswordSecretNameAuto
            then getSecretNameForUserPassword d k else v) := by
  rw [BootstrapSpec.fillUsers_eq_map d names h, BootstrapSpec.resolve_eq d]
  exact PasswordSecretNameList.lookup_map_value names k
    (fun k v => if k ≠ UserNameRoot ∧ v = PasswordSecretNameAuto
      then getSecretNameForUserPassword d k else v)

theorem BootstrapSpec.keys_fillUsers (d : String) (names : PasswordSecretNameList)
    (h : (names.map Prod.fst).Nodup) :
    (BootstrapSpec.fillUsers names d).map Prod.fst = names.map Prod.fst := by
  rw [BootstrapSpec.fillUsers_eq_map d names h, BootstrapSpec.resolve_eq d]
  simp [Function.comp_def]

/-- What the map holds for each user after the root check. -/
theorem BootstrapSpec.lookup_setDefaultRoot (d : String) (names : PasswordSecretNameList)
    (k : String) :
    List.lookup k (BootstrapSpec.setDefaultRoot names d)
      = if k = UserNameRoot then
          (match List.lookup UserNameRoot names with
            | some v =>
              if v = PasswordSecretNameAuto
                then some (getSecretNameForUserPassword d UserNameRoot) else some v
            | none => some (getSecretNameForUserPassword d UserNameRoot))
        else List.lookup k names := by
  unfold BootstrapSpec.setDefaultRoot
  cases hroot : List.lookup UserNameRoot names with
  | none =>
    by_cases hk : k = UserNameRoot
    · simp [PasswordSecretNameList.lookup_after_set, hk]
    · simp [PasswordSecretNameList.lookup_after_set, hk]
  | some v =>
    by_cases hv : v = PasswordSecretNameAuto
    · by_cases hk : k = UserNameRoot
      · simp [PasswordSecretNameList.lookup_after_set, hk, hv, PasswordSecretName.IsAuto]
      · simp [PasswordSecretNameList.lookup_after_set, hk, hv, PasswordSecretName.IsAuto]
    · by_cases hk : k = UserNameRoot
      · simp [hk, hv, PasswordSecretName.IsAuto, hroot]
      · simp [hk, hv, PasswordSecretName.IsAuto]

theorem BootstrapSpec.keys_setDefaultRoot (d : String) (names : PasswordSecretNameList) :
    (BootstrapSpec.setDefaultRoot names d).map Prod.fst
      = if UserNameRoot ∈ names.map Prod.fst then names.map Prod.fst
        else names.map Prod.fst ++ [UserNameRoot] := by
  unfold BootstrapSpec.setDefaultRoot
  cases hroot : List.lookup UserNameRoot names with
  | none =>
    have hnot := (PasswordSecretNameList.lookup_eq_none_iff names UserNameRoot).mp hroot
    simp only [hnot, if_false]
    exact PasswordSecretNameList.keys_set_of_not_mem names _ _ hnot
  | some v =>
    have hmem : UserNameRoot ∈ names.map Prod.fst := by
      by_contra hnot
      rw [(PasswordSecretNameList.lookup_eq_none_iff names UserNameRoot).mpr hnot] at hroot
      cases hroot
    simp only [hmem, if_true]
    split_ifs
    · exact PasswordSecretNameList.keys_set_of_mem names _ _ hmem
    · rfl

theorem BootstrapSpec.nodup_setDefaultRoot (d : String) (names : PasswordSecretNameList)
    (h : (names.map Prod.fst).Nodup) :
    ((BootstrapSpec.setDefaultRoot names d).map Prod.fst).Nodup := by
  rw [BootstrapSpec.keys_setDefaultRoot]
  split_ifs with hmem
  · exact h
  · rw [List.nodup_append]
    refine ⟨h, List.nodup_singleton _, ?_⟩
    intro a ha hb
    simp only [List.mem_singleton] at hb
    exact hmem (hb ▸ ha)

theorem PasswordSecretNameList.lookup_eq_some_iff_mem (m : PasswordSecretNameList)
    (h : (m.map Prod.fst).Nodup) (k : String) (v : PasswordSecretName) :
    List.lookup k m = some v ↔ (k, v) ∈ m := by
  induction m with
  | nil => simp [List.lookup]
  | cons e rest ih =>
    obtain ⟨k0, v0⟩ := e
    simp only [List.map_cons, List.nodup_cons] at h
    by_cases hk : k = k0
    · subst hk
      have hnot : (k, v) ∉ rest := fun hmem => h.1 (List.mem_map_of_mem Prod.fst hmem)
      simp only [List.lookup, beq_self_eq_true, Option.some.injEq, List.mem_cons, Prod.mk.injEq,
        true_and, hnot, or_false]
      exact eq_comm
    · have h' : (k == k0) = false := by simpa using hk
      simp [List.lookup, h', ih h.2, hk]

/-- A map with distinct keys in which root has a value other than Auto and no
other user has the value Auto is left as it is by both statements of
`SetDefaults`. -/
theorem BootstrapSpec.fillUsers_setDefaultRoot_of_resolved (d : String)
    (r : PasswordSecretNameList)
    (hroot : ∃ v, List.lookup UserNameRoot r = some v ∧ v ≠ PasswordSecretNameAuto)
    (hres : ∀ e ∈ r, e.1 ≠ UserNameRoot → e.2 ≠ PasswordSecretNameAuto) :
    BootstrapSpec.fillUsers (BootstrapSpec.setDefaultRoot r d) d = r := by
  obtain ⟨v, hv, hne⟩ := hroot
  have h1 : BootstrapSpec.setDefaultRoot r d = r := by
    simp [BootstrapSpec.setDefaultRoot, hv, PasswordSecretName.IsAuto, hne]
  rw [h1]
  exact BootstrapSpec.foldl_fillUser_of_resolved d r r hres

/-- After `SetDefaults` on a map with distinct keys, root has a value other
than Auto and no other user has the value Auto. -/
theorem BootstrapSpec.resolved_after_SetDefaults (d : String) (names : PasswordSecretNameList)
    (h : (names.map Prod.fst).Nodup) :
    (∃ v, List.lookup UserNameRoot
          (BootstrapSpec.fillUsers (BootstrapSpec.setDefaultRoot names d) d) = some v
        ∧ v ≠ PasswordSecretNameAuto)
      ∧ (∀ e ∈ BootstrapSpec.fillUsers (BootstrapSpec.setDefaultRoot names d) d,
          e.1 ≠ UserNameRoot → e.2 ≠ PasswordSecretNameAuto) := by
  have hnd := BootstrapSpec.nodup_setDefaultRoot d names h
  constructor
  · rw [BootstrapSpec.lookup_fillUsers d _ hnd, BootstrapSpec.lookup_setDefaultRoot]
    simp only [if_true, ne_eq, not_true_eq_false, false_and, if_false]
    cases hroot : List.lookup UserNameRoot names with
    | none => exact ⟨_, rfl, getSecretNameForUserPassword_ne_auto d UserNameRoot⟩
    | some v =>
      by_cases hv : v = PasswordSecretNameAuto
      · simp only [hv, if_true]
        exact ⟨_, rfl, getSecretNameForUserPassword_ne_auto d UserNameRoot⟩
      · simp only [hv, if_false]
        exact ⟨v, rfl, hv⟩
  · intro e he hne
    rw [BootstrapSpec.fillUsers_eq_map d _ hnd] at he
    obtain ⟨e0, _, he0⟩ := List.mem_map.mp he
    by_cases hc : e0.1 ≠ UserNameRoot ∧ e0.2 = PasswordSecretNameAuto
    · rw [if_pos hc] at he0
      rw [← he0]
      exact getSecretNameForUserPassword_ne_auto d e0.1
    · rw [if_neg hc] at he0
      subst he0
      intro hauto
      exact hc ⟨hne, hauto⟩

/-- C11: BootstrapSpec.SetDefaults is idempotent: for every BootstrapSpec (nil
map, empty map, or a map with entries, Auto, None and the empty name
included) and every deployment name, applying SetDefaults twice gives the same
PasswordSecretNames map as applying it once; this also holds when the second
call visits the entries of the map in another order. -/
theorem BootstrapSpec.SetDefaults_twice_eq_once (b : BootstrapSpec) (deploymentname : String)
    (hwf : b.WellFormed) :
    (b.SetDefaults deploymentname).SetDefaults deploymentname = b.SetDefaults deploymentname
      ∧ (∀ r r', (b.SetDefaults deploymentname).PasswordSecretNames = some r → r'.Perm r →
          (BootstrapSpec.SetDefaults { PasswordSecretNames := some r' }
            deploymentname).PasswordSecretNames = some r') := by
  have key : ∃ r, (b.SetDefaults deploymentname).PasswordSecretNames = some r
      ∧ (r.map Prod.fst).Nodup
      ∧ (∃ v, List.lookup UserNameRoot r = some v ∧ v ≠ PasswordSecretNameAuto)
      ∧ (∀ e ∈ r, e.1 ≠ UserNameRoot → e.2 ≠ PasswordSecretNameAuto) := by
    cases hb : b.PasswordSecretNames with
    | none =>
      refine ⟨[(UserNameRoot, getSecretNameForUserPassword deploymentname UserNameRoot)], ?_, ?_,
        ?_, ?_⟩
      · simp [BootstrapSpec.SetDefaults, hb]
      · simp
      · exact ⟨_, by simp [List.lookup],
          getSecretNameForUserPassword_ne_auto deploymentname UserNameRoot⟩
      · intro e he hne
        simp only [List.mem_singleton] at he
        subst he
        exact absurd rfl hne
    | some names =>
      have hnd := hwf names hb
      have hres := BootstrapSpec.resolved_after_SetDefaults deploymentname names hnd
      refine ⟨_, by simp [BootstrapSpec.SetDefaults, hb], ?_, hres.1, hres.2⟩
      rw [BootstrapSpec.keys_fillUsers deploymentname _
        (BootstrapSpec.nodup_setDefaultRoot deploymentname names hnd)]
      exact BootstrapSpec.nodup_setDefaultRoot deploymentname names hnd
  obtain ⟨r, hr, hnd, hroot, hres⟩ := key
  constructor
  · have hfix := BootstrapSpec.fillUsers_setDefaultRoot_of_resolved deploymentname r hroot hres
    cases hval : b.SetDefaults deploymentname with
    | mk names =>
      rw [hval] at hr
      simp only at hr
      subst hr
      simp [BootstrapSpec.SetDefaults, hfix]
  · intro r0 r' hr0 hperm
    rw [hr] at hr0
    cases hr0
    have hnd' : (r'.map Prod.fst).Nodup := (hperm.map Prod.fst).nodup_iff.mpr hnd
    obtain ⟨v, hv, hne⟩ := hroot
    have hroot' : ∃ v, List.lookup UserNameRoot r' = some v ∧ v ≠ PasswordSecretNameAuto := by
      refine ⟨v, ?_, hne⟩
      rw [PasswordSecretNameList.lookup_eq_some_iff_mem r' hnd']
      rw [PasswordSecretNameList.lookup_eq_some_iff_mem r hnd] at hv
      exact hperm.mem_iff.mpr hv
    have hres' : ∀ e ∈ r', e.1 ≠ UserNameRoot → e.2 ≠ PasswordSecretNameAuto :=
      fun e he => hres e (hperm.mem_iff.mp he)
    simp [BootstrapSpec.SetDefaults,
      BootstrapSpec.fillUsers_setDefaultRoot_of_resolved deploymentname r' hroot' hres']

/-- On `sampleBootstrap`, whose map holds Auto for root and alice, None, the
empty name and a concrete name, a second SetDefaults changes nothing. -/
theorem BootstrapSpec.SetDefaults_twice_eq_once_witness :
    (sampleBootstrap.SetDefaults "db").SetDefaults "db" = sampleBootstrap.SetDefaults "db" :=
  (BootstrapSpec.SetDefaults_twice_eq_once sampleBootstrap "db"
    (by
      intro names hn
      cases hn
      decide)).1

/-- C12: for every deployment name d, SetDefaults turns the nil map into
exactly the map that gives root the name d-root-password; on a present map
the resulting keys are the original keys plus root, a missing root gets
d-root-password, every entry (root's included) whose value is exactly Auto
gets d-user-password, and every other entry (concrete names, None, the empty
name) keeps its value. -/
theorem BootstrapSpec.SetDefaults_result (b : BootstrapSpec) (d : String)
    (hwf : b.WellFormed) :
    (b.PasswordSecretNames = none →
        (b.SetDefaults d).PasswordSecretNames = some [("root", d ++ "-root-password")])
      ∧ (∀ names, b.PasswordSecretNames = some names →
          ∃ r, (b.SetDefaults d).PasswordSecretNames = some r
            ∧ (r.map Prod.fst).Nodup
            ∧ (∀ user, user ∈ r.map Prod.fst ↔ user ∈ names.map Prod.fst ∨ user = "root")
            ∧ (List.lookup "root" names = none →
                List.lookup "root" r = some (d ++ "-root-password"))
            ∧ (∀ user, List.lookup user names = some "Auto" →
                List.lookup user r = some (d ++ "-" ++ user ++ "-password"))
            ∧ (∀ user v, List.lookup user names = some v → v ≠ "Auto" →
                List.lookup user r = some v)) := by
  have hgen : getSecretNameForUserPassword d "root" = d ++ "-root-password" :=
    getSecretNameForUserPassword_root d
  constructor
  · intro hb
    simp [BootstrapSpec.SetDefaults, hb, UserNameRoot, hgen]
  · intro names hb
    have hnd := hwf names hb
    have hnd1 := BootstrapSpec.nodup_setDefaultRoot d names hnd
    refine ⟨BootstrapSpec.fillUsers (BootstrapSpec.setDefaultRoot names d) d,
      by simp [BootstrapSpec.SetDefaults, hb], ?_, ?_, ?_, ?_, ?_⟩
    · rw [BootstrapSpec.keys_fillUsers d _ hnd1]
      exact hnd1
    · intro user
      rw [BootstrapSpec.keys_fillUsers d _ hnd1, BootstrapSpec.keys_setDefaultRoot]
      by_cases hmem : UserNameRoot ∈ names.map Prod.fst
      · simp only [hmem, if_true]
        constructor
        · intro h
          exact Or.inl h
        · intro h
          rcases h with h | h
          · exact h
          · rw [h]
            exact hmem
      · simp only [hmem, if_false, List.mem_append, List.mem_singleton]
        rfl
    · intro hroot
      rw [BootstrapSpec.lookup_fillUsers d _ hnd1, BootstrapSpec.lookup_setDefaultRoot]
      simp [UserNameRoot, hroot, hgen]
    · intro user hauto
      rw [BootstrapSpec.lookup_fillUsers d _ hnd1, BootstrapSpec.lookup_setDefaultRoot]
      by_cases hu : user = UserNameRoot
      · subst hu
        simp [hauto, PasswordSecretNameAuto, getSecretNameForUserPassword]
      · simp [hu, hauto, PasswordSecretNameAuto, getSecretNameForUserPassword]
    · intro user v hv hne
      rw [BootstrapSpec.lookup_fillUsers d _ hnd1, BootstrapSpec.lookup_setDefaultRoot]
      by_cases hu : user = UserNameRoot
      · subst hu
        simp [hv, PasswordSecretNameAuto, hne]
      · simp [hu, hv, PasswordSecretNameAuto, hne]

/-- The conclusions of C12 for `sampleBootstrap` and the deployment name `db`. -/
theorem BootstrapSpec.SetDefaults_result_witness :
    ∃ r, (sampleBootstrap.SetDefaults "db").PasswordSecretNames = some r
      ∧ (r.map Prod.fst).Nodup
      ∧ (∀ user, user ∈ r.map Prod.fst ↔
          user ∈ ([("alice", "Auto"), ("root", "Auto"), ("bob", "None"), ("carol", ""),
            ("dave", "dave-secret")] : PasswordSecretNameList).map Prod.fst ∨ user = "root")
      ∧ (List.lookup "root" ([("alice", "Auto"), ("root", "Auto"), ("bob", "None"),
            ("carol", ""), ("dave", "dave-secret")] : PasswordSecretNameList) = none →
          List.lookup "root" r = some ("db" ++ "-root-password"))
      ∧ (∀ user, List.lookup user ([("alice", "Auto"), ("root", "Auto"), ("bob", "None"),
            ("carol", ""), ("dave", "dave-secret")] : PasswordSecretNameList) = some "Auto" →
          List.lookup user r = some ("db" ++ "-" ++ user ++ "-password"))
      ∧ (∀ user v, List.lookup user ([("alice", "Auto"), ("root", "Auto"), ("bob", "None"),
            ("carol", ""), ("dave", "dave-secret")] : PasswordSecretNameList) = some v →
          v ≠ "Auto" → List.lookup user r = some v) :=
  (BootstrapSpec.SetDefaults_result sampleBootstrap "db"
    (by
      intro names hn
      cases hn
      decide)).2 _ rfl

/-! ## Storage rotation plan: classification of a member -/

/-- C21: an eligible member (phase Created, claim name set) whose claim was
read, reached with an empty plan, is handled as a replacement exactly when the
group's desired storage class is non-empty and differs from the claim's class
(nil read as the empty string): it then gets its group's replacement actions
or, outside Agents and DBServers, the cannot-change-storage-class event, and
the outcome depends neither on the rotate-member planner nor on a pending
resize. Otherwise no event is emitted and the plan is the rotate-member
planner's when a resize is pending and empty when not. In particular a group
with an empty desired storage class never gets a replacement. -/
theorem createRotateServerStoragePlan_member_classification
    (getPVC : GetPVC) (rot : RotateMemberPlanner) (spec : DeploymentSpec) (g : ServerGroup)
    (m : MemberStatus) (pvc : PersistentVolumeClaim)
    (hphase : m.Phase = MemberPhase.Created)
    (hname : m.PersistentVolumeClaimName ≠ "")
    (hpvc : getPVC m.PersistentVolumeClaimName = .ok pvc) :
    (((spec.GetServerGroupSpec g).GetStorageClassName ≠ ""
          ∧ (spec.GetServerGroupSpec g).GetStorageClassName
            ≠ util.StringOrDefault pvc.Spec.StorageClassName) →
        memberActions getPVC rot spec (g, m)
            = (match g with
              | .Agents =>
                [NewAction .ShutdownMember .Agents m.ID, NewAction .RemoveMember .Agents m.ID,
                  NewAction .AddMember .Agents m.ID, NewAction .WaitForMemberUp .Agents m.ID]
              | .DBServers =>
                [NewAction .AddMember .DBServers "",
                  NewAction .WaitForMemberUp .DBServers MemberIDPreviousAction,
                  NewAction .CleanOutMember .DBServers m.ID,
                  NewAction .ShutdownMember .DBServers m.ID,
                  NewAction .RemoveMember .DBServers m.ID]
              | _ => [])
          ∧ (scanMember getPVC rot spec g BuilderState.init m).events
            = (if g = ServerGroup.Agents ∨ g = ServerGroup.DBServers then []
              else [NewCannotChangeStorageClassEvent m.ID g.AsRole "Not supported"])
          ∧ (∀ (getPVC' : GetPVC) (rot' : RotateMemberPlanner) (pvc' : PersistentVolumeClaim),
              getPVC' m.PersistentVolumeClaimName = .ok pvc' → pvc'.Spec = pvc.Spec →
                scanMember getPVC' rot' spec g BuilderState.init m
                  = scanMember getPVC rot spec g BuilderState.init m))
      ∧ (¬ ((spec.GetServerGroupSpec g).GetStorageClassName ≠ ""
          ∧ (spec.GetServerGroupSpec g).GetStorageClassName
            ≠ util.StringOrDefault pvc.Spec.StorageClassName) →
        (scanMember getPVC rot spec g BuilderState.init m).events = []
          ∧ memberActions getPVC rot spec (g, m)
            = (if IsPersistentVolumeClaimFileSystemResizePending pvc = true then
                rot m g "Filesystem resize pending"
              else []))
      ∧ ((spec.GetServerGroupSpec g).GetStorageClassName = "" →
        (scanMember getPVC rot spec g BuilderState.init m).events = []
          ∧ memberActions getPVC rot spec (g, m)
            = (if IsPersistentVolumeClaimFileSystemResizePending pvc = true then
                rot m g "Filesystem resize pending"
              else [])) := by
  have hrot : ¬ ((spec.GetServerGroupSpec g).GetStorageClassName ≠ ""
        ∧ (spec.GetServerGroupSpec g).GetStorageClassName
          ≠ util.StringOrDefault pvc.Spec.StorageClassName) →
      (scanMember getPVC rot spec g BuilderState.init m).events = []
        ∧ memberActions getPVC rot spec (g, m)
          = (if IsPersistentVolumeClaimFileSystemResizePending pvc = true then
              rot m g "Filesystem resize pending"
            else []) := by
    intro hno
    have hcond : ¬ (util.StringOrDefault pvc.Spec.StorageClassName
          ≠ (spec.GetServerGroupSpec g).GetStorageClassName
        ∧ (spec.GetServerGroupSpec g).GetStorageClassName ≠ "") :=
      fun h => hno ⟨h.2, Ne.symm h.1⟩
    cases hr : IsPersistentVolumeClaimFileSystemResizePending pvc <;>
      simp [memberActions, scanMember, BuilderState.init, hphase, hname, hpvc, hcond, hr]
  refine ⟨?_, hrot, fun hempty => hrot (fun h => h.1 hempty)⟩
  rintro ⟨hset, hdiff⟩
  have hdiff' := Ne.symm hdiff
  refine ⟨?_, ?_, ?_⟩
  · cases g <;>
      simp [memberActions, scanMember, BuilderState.init, hphase, hname, hpvc, hset, hdiff']
  · cases g <;>
      simp [scanMember, BuilderState.init, hphase, hname, hpvc, hset, hdiff']
  · intro getPVC' rot' pvc' hpvc' hspec
    have hdiff'' : util.StringOrDefault pvc'.Spec.StorageClassName
        ≠ (spec.GetServerGroupSpec g).GetStorageClassName := by
      rw [hspec]
      exact hdiff'
    cases g <;>
      simp [scanMember, BuilderState.init, hphase, hname, hpvc, hpvc', hset, hdiff', hdiff'',
        hspec]

/-- For dbserver `d1` with desired class `fast` and a claim of class `slow` on
which a resize is pending, the replacement sequence is produced, not the
rotate-member plan. -/
theorem createRotateServerStoragePlan_member_classification_witness :
    memberActions sampleGetPVCSlowResizing sampleRotate (sampleSpec .Cluster)
        (ServerGroup.DBServers, sampleMember "d1" "pvc-d1")
      = [NewAction .AddMember .DBServers "",
          NewAction .WaitForMemberUp .DBServers MemberIDPreviousAction,
          NewAction .CleanOutMember .DBServers (sampleMember "d1" "pvc-d1").ID,
          NewAction .ShutdownMember .DBServers (sampleMember "d1" "pvc-d1").ID,
          NewAction .RemoveMember .DBServers (sampleMember "d1" "pvc-d1").ID] :=
  ((createRotateServerStoragePlan_member_classification sampleGetPVCSlowResizing sampleRotate
    (sampleSpec .Cluster) .DBServers (sampleMember "d1" "pvc-d1") sampleClaimSlowResizing
    (by decide) (by decide) rfl).1 (by decide)).1

/-! ## Defaulting and validation of the count -/

/-- C22: a ServerGroupSpec whose count is unset or 0 passes Validate for the
same group, used flag and mode, under every environment, once SetDefaults has
been applied; for a used group the defaulted count is 1 for Single in Single
mode, 2 for Single in any other mode and 3 for every other group. -/
theorem ServerGroupSpec.Validate_after_SetDefaults (s : ServerGroupSpec) (group : ServerGroup)
    (used : Bool) (mode : DeploymentMode) (env : Environment)
    (hcount : s.Count = none ∨ s.Count = some 0) :
    (s.SetDefaults group used mode).Validate group used mode env = .ok ()
      ∧ (used = true →
          (s.SetDefaults group used mode).Count
            = some (if group = ServerGroup.Single then
                (if mode = DeploymentMode.Single then 1 else 2)
              else 3))
      ∧ (used = false → (s.SetDefaults group used mode).Count = s.Count) := by
  have hget : s.Count.getD 0 = 0 := by
    rcases hcount with h | h <;> simp [h]
  have hcnt : ∀ t : ServerGroupSpec,
      (t.setDefaultStorageRequest group).Count = t.Count := by
    intro t
    unfold ServerGroupSpec.setDefaultStorageRequest
    split
    · rfl
    · split <;> rfl
  have hcnt' : ∀ t : ServerGroupSpec,
      (t.setDefaultStorageRequest group).GetCount = t.GetCount := by
    intro t
    simp [ServerGroupSpec.GetCount_eq_getD, hcnt t]
  refine ⟨?_, ?_, ?_⟩
  · simp only [ServerGroupSpec.SetDefaults, ServerGroupSpec.Validate, hcnt']
    cases used <;> cases env <;> cases group <;> cases mode <;>
      simp [ServerGroupSpec.setDefaultCount, ServerGroupSpec.GetCount_eq_getD, hget, util.Int]
  · intro hused
    subst hused
    simp only [ServerGroupSpec.SetDefaults, hcnt]
    cases group <;> cases mode <;>
      simp [ServerGroupSpec.setDefaultCount, ServerGroupSpec.GetCount_eq_getD, hget, util.Int]
  · intro hused
    subst hused
    simp only [ServerGroupSpec.SetDefaults, hcnt]
    simp [ServerGroupSpec.setDefaultCount]

/-- A used Agents spec with an unset count passes Validate in a Production
cluster after SetDefaults. -/
theorem ServerGroupSpec.Validate_after_SetDefaults_witness :
    ((sampleGroupSpec none).SetDefaults .Agents true .Cluster).Validate
        .Agents true .Cluster .Production = .ok () :=
  (ServerGroupSpec.Validate_after_SetDefaults (sampleGroupSpec none) .Agents true .Cluster
    .Production (Or.inl rfl)).1

end KubeArangoDB
